import Mathlib

/-!
Verification of the metrics-app entry pipeline, formula engine, timing-block
parser and widget DSL.  Each TypeScript source function is embedded as an
executable Lean definition (JS numbers are modelled as rationals, JS `Map`s as
association lists preserving insertion order, mutation as explicit state
passing, and `Date` values as an opaque day/minute pair).  Theorems at the end
of the file settle the specification claims against these embeddings.
-/

namespace MApp

/-- JS `Date`, reduced to the structure the pipeline observes: a day and a
time-of-day.  `setHours(0,0,0,0)` zeroes the time-of-day component. -/
structure DateT where
  day : Int
  minutes : Int
deriving DecidableEq, Repr

/-- Placeholder for `new Date()` audit timestamps; the pipeline never branches
on these, so a fixed value keeps the embedding deterministic. -/
def dateNow : DateT := ⟨0, 0⟩

/-- `normalizeToStartOfDay` from pipeline.ts. -/
def normalizeToStartOfDay (t : DateT) : DateT := ⟨t.day, 0⟩

/-- The JS `number` values this codebase manipulates, modelled as normalized
rationals over `Int`/`Nat` (whose kernel arithmetic is fast), so that every
evaluator run reduces definitionally.  All arithmetic goes through `norm`, so
derived structural equality coincides with rational equality. -/
structure JNum where
  num : Int
  den : Nat
deriving DecidableEq, Repr

/-- Normalized fraction `n / d` (sign on the numerator, lowest terms;
`d = 0` collapses to `0`, a case the evaluators guard against anyway). -/
def JNum.norm (n d : Int) : JNum :=
  let s : Int := if d < 0 then -1 else 1
  let n' := s * n
  let d' := (s * d).toNat
  let g := Int.gcd n' (Int.ofNat d')
  if g = 0 then ⟨0, 1⟩ else ⟨Int.tdiv n' (Int.ofNat g), d' / g⟩

def JNum.ofInt (n : Int) : JNum := ⟨n, 1⟩

instance (n : Nat) : OfNat JNum n := ⟨⟨Int.ofNat n, 1⟩⟩

def JNum.add (a b : JNum) : JNum :=
  .norm (a.num * Int.ofNat b.den + b.num * Int.ofNat a.den) (Int.ofNat (a.den * b.den))

def JNum.sub (a b : JNum) : JNum :=
  .norm (a.num * Int.ofNat b.den - b.num * Int.ofNat a.den) (Int.ofNat (a.den * b.den))

def JNum.mul (a b : JNum) : JNum := .norm (a.num * b.num) (Int.ofNat (a.den * b.den))

def JNum.div (a b : JNum) : JNum := .norm (a.num * Int.ofNat b.den) (Int.ofNat a.den * b.num)

def JNum.neg (a : JNum) : JNum := ⟨-a.num, a.den⟩

/-- `Math.floor`. -/
def JNum.floor (a : JNum) : Int := Int.fdiv a.num (Int.ofNat a.den)

/-- Truncation toward zero. -/
def JNum.trunc (a : JNum) : Int := Int.tdiv a.num (Int.ofNat a.den)

/-- JS `%`: remainder with the sign of the dividend. -/
def JNum.jsMod (a b : JNum) : JNum := a.sub (b.mul (.ofInt ((a.div b).trunc)))

def JNum.lt (a b : JNum) : Prop := a.num * Int.ofNat b.den < b.num * Int.ofNat a.den

instance : DecidableRel JNum.lt := fun a b => by
  unfold JNum.lt; infer_instance

def JNum.powNat (a : JNum) : Nat → JNum
  | 0 => 1
  | n + 1 => (a.powNat n).mul a

/-- `Math.pow` restricted to integer exponents (the only shape the formula DSL
could meaningfully produce in a rational model; `^` is unreachable in the
claims below). -/
def JNum.powJs (a b : JNum) : JNum :=
  if b.den = 1 then
    if 0 ≤ b.num then a.powNat b.num.toNat
    else (JNum.ofInt 1).div (a.powNat (-b.num).toNat)
  else 0

def JNum.sumList (l : List JNum) : JNum := l.foldl (fun a b => a.add b) 0

/-- JS number rendering, used only inside interpolated error strings (integer
values print exactly like JS; fractional values use `num/den`, a divergence
confined to message text the claims do not inspect). -/
def JNum.text (a : JNum) : String :=
  if a.den = 1 then toString a.num else toString a.num ++ "/" ++ toString a.den

/-- Attribute datatypes (domain/AttributeDefinition). -/
inductive AttributeDatatype where
  | int | float | string | bool | timestamp | hierarchyString
deriving DecidableEq, Repr

/-- A runtime scalar stored in one of the typed value columns.  JS lets any
value sit in any column; the sum type records what is actually stored. -/
inductive AttrVal where
  | num : JNum → AttrVal
  | str : String → AttrVal
  | bool : Bool → AttrVal
  | date : DateT → AttrVal
deriving DecidableEq, Repr

/-- Rendering used by JS template interpolation of identifier values. -/
def AttrVal.text : AttrVal → String
  | .num q => q.text
  | .str s => s
  | .bool b => if b then "true" else "false"
  | .date _ => "Date"

inductive DefType where
  | metric | attribute
deriving DecidableEq, Repr

/-- domain/Definition. -/
structure Definition where
  id : String
  type : DefType
  code : String
  displayName : String
  parentDefinitionId : Option String
deriving DecidableEq, Repr

/-- domain/MetricDefinition. -/
structure MetricDefinition where
  definitionId : String
  primaryIdentifierFieldId : Option String
deriving DecidableEq, Repr

/-- domain/AttributeDefinition. -/
structure AttributeDefinition where
  definitionId : String
  datatype : AttributeDatatype
deriving DecidableEq, Repr

inductive InputMode where
  | input | formula
deriving DecidableEq, Repr

/-- domain/Field. -/
structure Field where
  id : String
  metricDefinitionId : String
  name : String
  baseDefinitionId : String
  inputMode : InputMode
  formula : Option String
  minInstances : Nat
  maxInstances : Option Nat
deriving DecidableEq, Repr

/-- domain/Entry. -/
structure Entry where
  id : Int
  userId : String
  definitionId : String
  parentEntryId : Option Int
  timestamp : DateT
  subdivision : Option String
  comments : Option String
  createdAt : DateT
  updatedAt : DateT
deriving DecidableEq, Repr

/-- domain/MetricEntry. -/
structure MetricEntry where
  entryId : Int
deriving DecidableEq, Repr

/-- domain/AttributeEntry: six nullable value columns. -/
structure AttributeEntry where
  entryId : Int
  fieldId : String
  valueInt : Option AttrVal
  valueFloat : Option AttrVal
  valueString : Option AttrVal
  valueBool : Option AttrVal
  valueTimestamp : Option AttrVal
  valueHierarchy : Option AttrVal
deriving DecidableEq, Repr

/-- pipeline/types.ts `getAttributeValue`: first populated column in the fixed
priority int, float, string, bool, timestamp, hierarchy. -/
def getAttributeValue (e : AttributeEntry) : Option AttrVal :=
  match e.valueInt with
  | some v => some v
  | none =>
  match e.valueFloat with
  | some v => some v
  | none =>
  match e.valueString with
  | some v => some v
  | none =>
  match e.valueBool with
  | some v => some v
  | none =>
  match e.valueTimestamp with
  | some v => some v
  | none => e.valueHierarchy

/-- pipeline/types.ts `setAttributeValue`: clear all columns, then set the one
selected by the datatype. -/
def setAttributeValue (e : AttributeEntry) (dt : AttributeDatatype) (v : AttrVal) :
    AttributeEntry :=
  let cleared : AttributeEntry :=
    { e with valueInt := none, valueFloat := none, valueString := none,
             valueBool := none, valueTimestamp := none, valueHierarchy := none }
  match dt with
  | .int => { cleared with valueInt := some v }
  | .float => { cleared with valueFloat := some v }
  | .string => { cleared with valueString := some v }
  | .bool => { cleared with valueBool := some v }
  | .timestamp => { cleared with valueTimestamp := some v }
  | .hierarchyString => { cleared with valueHierarchy := some v }

/-- pipeline/types.ts `ResolvedEntry` (recursive record). -/
inductive ResolvedEntry where
  | mk : Entry → Option MetricEntry → Option AttributeEntry → Option String →
      List ResolvedEntry → ResolvedEntry

def ResolvedEntry.entry : ResolvedEntry → Entry
  | .mk e _ _ _ _ => e

def ResolvedEntry.metricEntry : ResolvedEntry → Option MetricEntry
  | .mk _ m _ _ _ => m

def ResolvedEntry.attributeEntry : ResolvedEntry → Option AttributeEntry
  | .mk _ _ a _ _ => a

def ResolvedEntry.fieldId : ResolvedEntry → Option String
  | .mk _ _ _ f _ => f

def ResolvedEntry.children : ResolvedEntry → List ResolvedEntry
  | .mk _ _ _ _ cs => cs

def ResolvedEntry.withChildren : ResolvedEntry → List ResolvedEntry → ResolvedEntry
  | .mk e m a f _, cs => .mk e m a f cs

def ResolvedEntry.withFieldId : ResolvedEntry → Option String → ResolvedEntry
  | .mk e m a _ cs, f => .mk e m a f cs

def ResolvedEntry.withAttributeEntry : ResolvedEntry → Option AttributeEntry → ResolvedEntry
  | .mk e m _ f cs, a => .mk e m a f cs

/-- Association-list lookup modelling `Map.get` (keys are unique because `set`
replaces in place, so first match is the entry). -/
def lookupA {α : Type} (m : List (String × α)) (k : String) : Option α :=
  (m.find? (fun p => p.1 = k)).map (·.2)

/-- Association-list update modelling `Map.set` (replace or append). -/
def setA {α : Type} : List (String × α) → String → α → List (String × α)
  | [], k, v => [(k, v)]
  | (k', v') :: rest, k, v =>
      if k' = k then (k', v) :: rest else (k', v') :: setA rest k v

/-- pipeline/types.ts `PipelineError` variants. -/
inductive PipelineError where
  | subdivisionError (message fieldId formula : String)
  | instanceResolutionError (message fieldId metricDefinitionId : String)
      (identifierValue : AttrVal) (matchCount : Nat)
  | formulaError (message fieldId formula : String) (details : Option String)
  | cardinalityError (message fieldId fieldName : String)
      (expectedMin : Nat) (expectedMax : Option Nat) (actual : Nat)
deriving DecidableEq, Repr

/-- pipeline/types.ts `PipelineResult`. -/
inductive PResult (α : Type) where
  | ok : α → PResult α
  | err : PipelineError → PResult α

def PResult.decEq {α : Type} [DecidableEq α] : (a b : PResult α) → Decidable (a = b)
  | .ok a, .ok b =>
    if h : a = b then isTrue (by rw [h]) else isFalse (fun hc => h (PResult.ok.inj hc))
  | .ok _, .err _ => isFalse (fun hc => PResult.noConfusion hc)
  | .err _, .ok _ => isFalse (fun hc => PResult.noConfusion hc)
  | .err a, .err b =>
    if h : a = b then isTrue (by rw [h]) else isFalse (fun hc => h (PResult.err.inj hc))

instance {α : Type} [DecidableEq α] : DecidableEq (PResult α) := PResult.decEq

def exceptDecEq {ε α : Type} [DecidableEq ε] [DecidableEq α] :
    (a b : Except ε α) → Decidable (a = b)
  | .ok a, .ok b =>
    if h : a = b then isTrue (by rw [h]) else isFalse (fun hc => h (Except.ok.inj hc))
  | .ok _, .error _ => isFalse (fun hc => Except.noConfusion hc)
  | .error _, .ok _ => isFalse (fun hc => Except.noConfusion hc)
  | .error a, .error b =>
    if h : a = b then isTrue (by rw [h]) else isFalse (fun hc => h (Except.error.inj hc))

instance {ε α : Type} [DecidableEq ε] [DecidableEq α] : DecidableEq (Except ε α) := exceptDecEq

/-- The spread `{...error, fieldId: field.id}` used when re-tagging an error
with the failing field. -/
def PipelineError.withFieldId : PipelineError → String → PipelineError
  | .subdivisionError m _ f, fid => .subdivisionError m fid f
  | .instanceResolutionError m _ md iv n, fid => .instanceResolutionError m fid md iv n
  | .formulaError m _ f d, fid => .formulaError m fid f d
  | .cardinalityError m _ fn mi ma a, fid => .cardinalityError m fid fn mi ma a

/-- Resolver interface (`ExistingEntriesResolver.findByPrimaryIdentifier`). -/
def ExistingEntriesResolver : Type := String → AttrVal → List ResolvedEntry

/-- pipeline/types.ts `PipelineContext`. -/
structure PipelineContext where
  definitions : List (String × Definition)
  metricDefinitions : List (String × MetricDefinition)
  attributeDefinitions : List (String × AttributeDefinition)
  fields : List (String × Field)
  fieldsByMetric : List (String × List Field)
  existingEntries : ExistingEntriesResolver

/-- pipeline/types.ts `PipelineState`. -/
structure PipelineState where
  root : ResolvedEntry
  context : PipelineContext
  division : List String
  subdivision : List String
  path : List String

/-- Numeric value of a digit string, as `parseInt(_, 10)` computes it. -/
def digitsVal (ds : List Char) : Nat :=
  ds.foldl (fun a c => a * 10 + (c.toNat - '0'.toNat)) 0

/-! Kernel-reducible counterparts of the JS string primitives the sources use
(the core `String` functions are compiled externs whose Lean models do not
reduce).  All inputs in this codebase are ASCII. -/

/-- JS `String.prototype.trim` (ASCII whitespace). -/
def jsTrim (s : String) : String :=
  String.mk (((s.data.dropWhile Char.isWhitespace).reverse.dropWhile Char.isWhitespace).reverse)

/-- JS `s.replace(/c/g, '')` for a single character: drop every occurrence. -/
def removeChar (c : Char) (s : String) : String :=
  String.mk (s.data.filter (fun x => x ≠ c))

def splitOnCharGo (c : Char) : List Char → List Char → List String
  | [], cur => [String.mk cur]
  | x :: rest, cur =>
      if x = c then String.mk cur :: splitOnCharGo c rest []
      else splitOnCharGo c rest (cur ++ [x])

/-- JS `s.split(c)` for a single-character separator. -/
def splitOnChar (c : Char) (s : String) : List String := splitOnCharGo c s.data []

def splitPredGo (p : Char → Bool) : List Char → List Char → List String
  | [], cur => [String.mk cur]
  | x :: rest, cur =>
      if p x then String.mk cur :: splitPredGo p rest []
      else splitPredGo p rest (cur ++ [x])

/-- JS `s.split(/\s+/)` for strings without leading whitespace: split on
whitespace runs (empty pieces collapse away). -/
def splitWsRuns (s : String) : List String :=
  (splitPredGo Char.isWhitespace s.data []).filter (fun x => x ≠ "")

/-- Concatenation of a list of strings. -/
def strJoin (l : List String) : String := l.foldl (fun a b => a ++ b) ""

/-- `Array.prototype.join(sep)`. -/
def joinSep (sep : String) : List String → String
  | [] => ""
  | [x] => x
  | x :: rest => x ++ sep ++ joinSep sep rest

/-- JS `String.prototype.startsWith`. -/
def strStartsWith (s p : String) : Bool := p.data.isPrefixOf s.data

/-- JS `String.prototype.endsWith`. -/
def strEndsWith (s p : String) : Bool := p.data.reverse.isPrefixOf s.data.reverse

/-- The strings `s` with `String(parseInt(s, 10)) === s`: an optional minus,
then digits with no superfluous leading zero, excluding `-0`. -/
def canonicalIntVal (s : String) : Option Int :=
  match s.data with
  | '-' :: ds =>
      if ds ≠ [] ∧ ds.all Char.isDigit ∧ (ds.length = 1 ∨ ds.head? ≠ some '0') ∧ ds ≠ ['0']
      then some (-(digitsVal ds : Int)) else none
  | ds =>
      if ds ≠ [] ∧ ds.all Char.isDigit ∧ (ds.length = 1 ∨ ds.head? ≠ some '0')
      then some ((digitsVal ds : Int)) else none

namespace Timing

/-- The `{message, lineNumber?, details?}` error record of dev/timingParser.ts. -/
structure ParseErr where
  message : String
  lineNumber : Option Nat
  details : Option String
deriving DecidableEq, Repr

/-- `TimingParser.parseTimeRange` result value. -/
structure TimeRange where
  timeInit : Nat
  timeEnd : Nat
  duration : Nat
deriving DecidableEq, Repr

/-- `TimingParser.parseTimeRange`: `^(\d{4})-(\d{4})$`, minute validation,
positive duration. -/
def parseTimeRange (timeStr : String) (lineNumber : Nat) : Except ParseErr TimeRange :=
  match timeStr.data with
  | [a, b, c, d, dash, e, f, g, hc] =>
    if dash = '-' ∧ ([a, b, c, d, e, f, g, hc].all Char.isDigit) then
      let startHH := digitsVal [a, b]
      let startMM := digitsVal [c, d]
      let endHH := digitsVal [e, f]
      let endMM := digitsVal [g, hc]
      if startMM ≥ 60 ∨ endMM ≥ 60 then
        .error ⟨"Invalid time: minutes must be < 60", some lineNumber, some timeStr⟩
      else
        let timeInit := startHH * 60 + startMM
        let timeEnd := endHH * 60 + endMM
        if timeEnd ≤ timeInit then
          .error ⟨"Invalid time range: end must be after start", some lineNumber, some timeStr⟩
        else .ok ⟨timeInit, timeEnd, timeEnd - timeInit⟩
    else .error ⟨"Invalid time range format (expected HHMM-HHMM)", some lineNumber, some timeStr⟩
  | _ => .error ⟨"Invalid time range format (expected HHMM-HHMM)", some lineNumber, some timeStr⟩

/-- `Map` accumulation of token letters: a repeated letter adds to its stored
value in place (`tokens.set(letter, tokens.get(letter)! + value)`). -/
def updateAdd : List (String × Nat) → String → Nat → List (String × Nat)
  | [], k, v => [(k, v)]
  | (k', v') :: rest, k, v =>
      if k' = k then (k', v' + v) :: rest else (k', v') :: updateAdd rest k v

/-- The `/([a-zA-Z])(\d+)/g` exec loop of `parseTimingTokens`: find each
letter-followed-by-digits match left to right; characters between matches or
after the last match must be whitespace-only. `pending` holds the characters
seen since the previous match end.  The fuel argument only bounds the loop (it
is called with the input length, which each step consumes at least one of). -/
def scanTimingTokens (tokenStr : String) (lineNumber : Nat) :
    Nat → List Char → List Char → List (String × Nat) → Except ParseErr (List (String × Nat))
  | _, [], pending, acc =>
      if jsTrim (String.mk pending) ≠ "" then
        .error ⟨"Invalid token syntax (trailing characters)", some lineNumber, some tokenStr⟩
      else .ok acc
  | 0, _ :: _, _, acc => .ok acc
  | fuel + 1, c :: rest, pending, acc =>
      if c.isAlpha ∧ ((rest.head?.map Char.isDigit).getD false) then
        if jsTrim (String.mk pending) ≠ "" then
          .error ⟨"Invalid token syntax", some lineNumber, some tokenStr⟩
        else
          scanTimingTokens tokenStr lineNumber fuel (rest.dropWhile Char.isDigit) []
            (updateAdd acc (String.mk [c.toLower]) (digitsVal (rest.takeWhile Char.isDigit)))
      else scanTimingTokens tokenStr lineNumber fuel rest (pending ++ [c]) acc

/-- `TimingParser.parseTimingTokens`: strip slashes, scan letter+number tokens,
reject stray characters, require at least one token. -/
def parseTimingTokens (tokenStr : String) (lineNumber : Nat) :
    Except ParseErr (List (String × Nat)) := do
  let cleanedStr := removeChar '/' tokenStr
  let tokens ← scanTimingTokens tokenStr lineNumber cleanedStr.data.length cleanedStr.data [] []
  if tokens.isEmpty then
    .error ⟨"No timing tokens found", some lineNumber, some tokenStr⟩
  else .ok tokens

/-- Attribute or tag values parsed by `TimingParser.parseValue`. -/
inductive ParsedVal where
  | num : JNum → ParsedVal
  | str : String → ParsedVal
deriving DecidableEq, Repr

/-- Canonical decimal floats: exactly the strings `s` with
`String(parseFloat(s)) === s` among `-?digits.digits` shapes (the only float
shapes the timing DSL feeds in). -/
def canonicalFloatVal (s : String) : Option JNum :=
  let (neg, cs) :=
    match s.data with
    | '-' :: rest => (true, rest)
    | cs => (false, cs)
  let ip := cs.takeWhile Char.isDigit
  match cs.dropWhile Char.isDigit with
  | '.' :: fr =>
      if ip.isEmpty ∨ fr.isEmpty ∨ ¬ (fr.all Char.isDigit) then none
      else if fr.getLast? = some '0' then none
      else if ip.length > 1 ∧ ip.head? = some '0' then none
      else
        let v : JNum :=
          (JNum.ofInt (digitsVal ip)).add (.norm (digitsVal fr) (Int.ofNat (10 ^ fr.length)))
        some (if neg then v.neg else v)
  | _ => none

/-- `TimingParser.parseValue`: canonical integer, else canonical float, else
the trimmed string. -/
def parseValue (value : String) : ParsedVal :=
  let trimmed := jsTrim value
  match canonicalIntVal trimmed with
  | some n => .num (.ofInt n)
  | none =>
      match canonicalFloatVal trimmed with
      | some q => .num q
      | none => .str trimmed

/-- Split at the first occurrence of a character (`indexOf` + two substrings). -/
def splitAtChar (c : Char) : List Char → Option (List Char × List Char)
  | [] => none
  | x :: rest =>
      if x = c then some ([], rest)
      else (splitAtChar c rest).map (fun p => (x :: p.1, p.2))

/-- `key:value` pair list parsing shared by attribute overrides (values go
through `parseValue`). -/
def parseAttrPairs (errMsg : String) (lineNumber : Nat) (part : String) :
    Except ParseErr (List (String × ParsedVal)) :=
  (part.splitOn ",").foldlM (fun acc pair =>
    match splitAtChar ':' pair.data with
    | none => .error ⟨errMsg, some lineNumber, some pair⟩
    | some (k, v) =>
        let key := jsTrim (String.mk k)
        let value := parseValue (jsTrim (String.mk v))
        if key ≠ "" then .ok (setA acc key value) else .ok acc) []

/-- `key:value` pair list parsing for tags (values stay strings). -/
def parseTagPairs (errMsg : String) (lineNumber : Nat) (part : String) :
    Except ParseErr (List (String × String)) :=
  (part.splitOn ",").foldlM (fun acc pair =>
    match splitAtChar ':' pair.data with
    | none => .error ⟨errMsg, some lineNumber, some pair⟩
    | some (k, v) =>
        let key := jsTrim (String.mk k)
        let value := jsTrim (String.mk v)
        if key ≠ "" then .ok (setA acc key value) else .ok acc) []

/-- `TimingParser.parseTimingLine` result record. -/
structure ParsedTimingLine where
  lineNumber : Nat
  timeInit : Nat
  timeEnd : Nat
  duration : Nat
  timingTokens : List (String × Nat)
  attributeOverrides : List (String × ParsedVal)
  tags : List (String × String)
deriving DecidableEq, Repr

/-- `TimingParser.parseTimingLine`: split on `|`, parse the time range and the
token string, check the token sum against the duration, then parse optional
overrides and tags. -/
def parseTimingLine (line : String) (lineNumber : Nat) : Except ParseErr ParsedTimingLine := do
  let parts := (splitOnChar '|' line).map jsTrim
  let mainPart := parts.headD ""
  let timeAndTokens := splitWsRuns mainPart
  if timeAndTokens.length < 2 then
    .error ⟨"Invalid timing line: must have time range and tokens", some lineNumber, some line⟩
  else
    let tr ← parseTimeRange (timeAndTokens.headD "") lineNumber
    let tokenStr := strJoin (timeAndTokens.drop 1)
    let timingTokens ← parseTimingTokens tokenStr lineNumber
    let totalTokenValue := (timingTokens.map (·.2)).sum
    if totalTokenValue > tr.duration then
      .error ⟨"Token values (" ++ toString totalTokenValue ++ ") exceed duration (" ++
        toString tr.duration ++ " min)", some lineNumber, some line⟩
    else
      let attributeOverrides ←
        if parts.length ≥ 2 ∧ (parts.get? 1).getD "" ≠ "" then
          parseAttrPairs "Invalid attribute override (missing ':')" lineNumber
            ((parts.get? 1).getD "")
        else .ok []
      let tags ←
        if parts.length ≥ 3 ∧ (parts.get? 2).getD "" ≠ "" then
          parseTagPairs "Invalid tag (missing ':')" lineNumber ((parts.get? 2).getD "")
        else .ok []
      .ok ⟨lineNumber, tr.timeInit, tr.timeEnd, tr.duration, timingTokens,
        attributeOverrides, tags⟩

end Timing

/-- Scan to the closing double quote: returns the enclosed characters and the
rest after the quote (everything when the quote is missing, like the JS loop). -/
def spanToQuote : List Char → List Char × List Char
  | [] => ([], [])
  | c :: rest =>
      if c = '"' then ([], rest)
      else
        let p := spanToQuote rest
        (c :: p.1, p.2)

theorem spanToQuote_len (l : List Char) : (spanToQuote l).2.length ≤ l.length := by
  induction l with
  | nil => simp [spanToQuote]
  | cons c rest ih =>
    by_cases h : c = '"'
    · simp [spanToQuote, h]
    · simp [spanToQuote, h]
      omega

/-- `'()[].,'.includes(char)`. -/
def isDelimChar (c : Char) : Bool :=
  c = '(' ∨ c = ')' ∨ c = '[' ∨ c = ']' ∨ c = '.' ∨ c = ','

/-- `'+-*/%'.includes(char)` (widget tokenizer operator set). -/
def isOpChar5 (c : Char) : Bool :=
  c = '+' ∨ c = '-' ∨ c = '*' ∨ c = '/' ∨ c = '%'

/-- `'+-*/%^'.includes(char)` (entry formula tokenizer operator set). -/
def isOpChar6 (c : Char) : Bool := isOpChar5 c ∨ c = '^'

/-- `if (current) tokens.push(current)`. -/
def pushCur (cur : List Char) (toks : List String) : List String :=
  if cur.isEmpty then toks else toks ++ [String.mk cur]

/-- The numeric-literal test `/^-?\d+(\.\d+)?$/`. -/
def numLitBody (ds : List Char) : Bool :=
  let ip := ds.takeWhile Char.isDigit
  if ip.isEmpty then false
  else
    match ds.dropWhile Char.isDigit with
    | [] => true
    | '.' :: fr => ¬ fr.isEmpty ∧ fr.all Char.isDigit
    | _ => false

def isNumLit (t : String) : Bool :=
  match t.data with
  | '-' :: ds => numLitBody ds
  | ds => numLitBody ds

/-- `parseFloat` on a string accepted by `isNumLit`. -/
def numBodyVal (ds : List Char) : JNum :=
  let ip := ds.takeWhile Char.isDigit
  match ds.dropWhile Char.isDigit with
  | '.' :: fr =>
      (JNum.ofInt (digitsVal ip)).add (.norm (digitsVal fr) (Int.ofNat (10 ^ fr.length)))
  | _ => .ofInt (digitsVal ip)

def numLitVal (t : String) : JNum :=
  match t.data with
  | '-' :: ds => (numBodyVal ds).neg
  | ds => numBodyVal ds

/-- JS `Number(string)` for the plain decimal shapes this codebase stores
(whitespace-trimmed; empty string is 0; anything unparsable is NaN = `none`;
exponent and hex shapes are not modelled). -/
def jsNumberOfString (s : String) : Option JNum :=
  let t := jsTrim s
  if t = "" then some 0
  else
    match t.data with
    | '-' :: ds => if numLitBody ds then some (numBodyVal ds).neg else none
    | ds => if numLitBody ds then some (numBodyVal ds) else none

/-- JS `Number(value)` on the scalar attribute values. -/
def jsNumberOf : AttrVal → Option JNum
  | .num q => some q
  | .str s => jsNumberOfString s
  | .bool b => some (if b then 1 else 0)
  | .date _ => none

/-- Strip an exact literal prefix. -/
def stripLit : List Char → List Char → Option (List Char)
  | [], cs => some cs
  | _ :: _, [] => none
  | p :: ps, c :: cs => if c = p then stripLit ps cs else none

/-- Strip one expected character. -/
def stripChar (c : Char) : List Char → Option (List Char)
  | [] => none
  | x :: rest => if x = c then some rest else none

/-- `\s+`: at least one whitespace character, then any further run. -/
def stripWs1 : List Char → Option (List Char)
  | [] => none
  | c :: rest =>
      if c.isWhitespace then some (rest.dropWhile Char.isWhitespace) else none

/-- JS `\w`. -/
def isWordChar (c : Char) : Bool := c.isAlphanum ∨ c = '_'

namespace WidgetDsl

/-- widget/types.ts `LoadedEntry` (attribute values may be null). -/
structure LoadedEntry where
  id : Int
  definitionCode : String
  timestamp : DateT
  subdivision : Option String
  attributes : List (String × Option AttrVal)
  timeValues : Option (List (String × JNum))
deriving DecidableEq, Repr

inductive WDatatype where
  | int | float
deriving DecidableEq, Repr

/-- widget/types.ts `ComputedField`. -/
structure ComputedField where
  label : String
  datatype : WDatatype
  expression : String
deriving DecidableEq, Repr

/-- widget/types.ts `DatasetDeclaration`.  The TS interface also declares a
required `period`, but `parseDatasetDeclaration` never produces one, so the
runtime object — and this embedding — has no period. -/
structure DatasetDeclaration where
  datasetAlias : String
  definitionCode : String
deriving DecidableEq, Repr

/-- widget/types.ts `ParsedWidget`. -/
structure ParsedWidget where
  name : String
  dataset : DatasetDeclaration
  computedFields : List ComputedField
deriving DecidableEq, Repr

/-- widget/types.ts `WidgetParseError`. -/
structure WidgetParseError where
  message : String
  lineNumber : Option Nat
  details : Option String
deriving DecidableEq, Repr

/-- widget/evaluateExpression.ts `IntermediateValue`. -/
inductive IVal where
  | n : JNum → IVal
  | arr : List JNum → IVal
deriving DecidableEq, Repr

/-- widget/types.ts `WidgetEvaluationContext`. -/
structure WidgetEvaluationContext where
  datasets : List (String × List LoadedEntry)
  definitionCode : String
deriving Repr

/-- widget/evaluateExpression.ts `tokenize`: whitespace, `()[].,` delimiters,
`+-*/%` operators, double-quoted strings, identifier accumulation.  Fuel is
the input length (each step consumes at least one character). -/
def tokenizeGo : Nat → List Char → List Char → List String → List String
  | _, [], cur, toks => pushCur cur toks
  | 0, _ :: _, cur, toks => pushCur cur toks
  | fuel + 1, c :: rest, cur, toks =>
      if c.isWhitespace then tokenizeGo fuel rest [] (pushCur cur toks)
      else if isDelimChar c then tokenizeGo fuel rest [] (pushCur cur toks ++ [String.mk [c]])
      else if isOpChar5 c then tokenizeGo fuel rest [] (pushCur cur toks ++ [String.mk [c]])
      else if c = '"' then
        let p := spanToQuote rest
        tokenizeGo fuel p.2 [] (pushCur cur toks ++ [String.mk ('"' :: p.1 ++ ['"'])])
      else tokenizeGo fuel rest (cur ++ [c]) toks

def tokenize (expression : String) : List String :=
  tokenizeGo expression.data.length expression.data [] []

/-- widget/evaluateExpression.ts `applyOperator`: scalars only, division and
modulo by zero rejected. -/
def applyOperator (left : IVal) (op : String) (right : IVal) : Except String IVal :=
  match left, right with
  | .n l, .n r =>
      if op = "+" then .ok (.n (l.add r))
      else if op = "-" then .ok (.n (l.sub r))
      else if op = "*" then .ok (.n (l.mul r))
      else if op = "/" then
        if r = 0 then .error "Division by zero" else .ok (.n (l.div r))
      else if op = "%" then
        if r = 0 then .error "Modulo by zero" else .ok (.n (l.jsMod r))
      else .error ("Unknown operator: " ++ op)
  | _, _ =>
      .error "Arithmetic operations require scalar values. Use sum(), avg(), or count() to aggregate first."

/-- widget/evaluateExpression.ts `applyAggregation`: a scalar becomes a
one-element list; the empty collection yields 0.  (The TS NaN filter is the
identity here because the model's arrays already hold numbers.) -/
def applyAggregation (fn : String) (values : IVal) : Except String JNum :=
  let nums :=
    match values with
    | .n v => [v]
    | .arr l => l
  if nums.length = 0 then .ok 0
  else if fn = "sum" then .ok (JNum.sumList nums)
  else if fn = "avg" then .ok ((JNum.sumList nums).div (.ofInt nums.length))
  else if fn = "count" then .ok (.ofInt nums.length)
  else .error ("Unknown aggregation function: " ++ fn)

/-- widget/evaluateExpression.ts `accessField`: on a collection, the numeric
coercions of `attributes[fieldName]` across the (first) dataset, non-numeric
values dropped; on a scalar, an error. -/
def accessField (value : IVal) (fieldName : String) (ctx : WidgetEvaluationContext) :
    Except String IVal :=
  match value with
  | .arr _ =>
      match ctx.datasets.head? with
      | none => .error "No dataset found"
      | some (_, entries) =>
          .ok (.arr (entries.filterMap (fun e =>
            match lookupA e.attributes fieldName with
            | some (some v) => jsNumberOf v
            | _ => none)))
  | .n _ => .error ("Cannot access field \"" ++ fieldName ++ "\" on scalar value")

/-- widget/evaluateExpression.ts `evaluateTimeOnCollection`: per entry, the sum
of `timeValues` whose key equals the base or starts with `base/`. -/
def evaluateTimeOnCollection (value : IVal) (base : String) (ctx : WidgetEvaluationContext) :
    Except String (List JNum) :=
  if ¬ (base = "t" ∨ base = "m" ∨ base = "p" ∨ base = "n") then
    .error ("Invalid time base \"" ++ base ++ "\". Must be one of: t, m, p, n")
  else
    match value with
    | .n _ => .error "time() can only be called on a collection of TIM entries"
    | .arr _ =>
        match ctx.datasets.head? with
        | none => .error "No dataset found"
        | some (_, entries) =>
            .ok (entries.map (fun e =>
              match e.timeValues with
              | none => 0
              | some tv =>
                  JNum.sumList ((tv.filter
                    (fun p => p.1 = base ∨ strStartsWith p.1 (base ++ "/"))).map (·.2))))

mutual

/-- widget/evaluateExpression.ts `parseAddSub` entry. -/
def parseAddSub (ctx : WidgetEvaluationContext) (toks : List String) :
    Nat → Nat → Except String (IVal × Nat)
  | 0, _ => .error "fuel exhausted"
  | fuel + 1, pos => do
      let (left, p) ← parseMulDiv ctx toks fuel pos
      parseAddSubLoop ctx toks fuel left p
termination_by structural fuel _ => fuel

/-- The `while` accumulation of `parseAddSub`. -/
def parseAddSubLoop (ctx : WidgetEvaluationContext) (toks : List String) :
    Nat → IVal → Nat → Except String (IVal × Nat)
  | 0, _, _ => .error "fuel exhausted"
  | fuel + 1, left, pos =>
      match toks.get? pos with
      | some op =>
          if op = "+" ∨ op = "-" then do
            let (right, p) ← parseMulDiv ctx toks fuel (pos + 1)
            match applyOperator left op right with
            | .error e => .error e
            | .ok v => parseAddSubLoop ctx toks fuel v p
          else .ok (left, pos)
      | none => .ok (left, pos)
termination_by structural fuel _ _ => fuel

/-- widget/evaluateExpression.ts `parseMulDiv` entry. -/
def parseMulDiv (ctx : WidgetEvaluationContext) (toks : List String) :
    Nat → Nat → Except String (IVal × Nat)
  | 0, _ => .error "fuel exhausted"
  | fuel + 1, pos => do
      let (left, p) ← parseUnary ctx toks fuel pos
      parseMulDivLoop ctx toks fuel left p
termination_by structural fuel _ => fuel

/-- The `while` accumulation of `parseMulDiv`. -/
def parseMulDivLoop (ctx : WidgetEvaluationContext) (toks : List String) :
    Nat → IVal → Nat → Except String (IVal × Nat)
  | 0, _, _ => .error "fuel exhausted"
  | fuel + 1, left, pos =>
      match toks.get? pos with
      | some op =>
          if op = "*" ∨ op = "/" ∨ op = "%" then do
            let (right, p) ← parseUnary ctx toks fuel (pos + 1)
            match applyOperator left op right with
            | .error e => .error e
            | .ok v => parseMulDivLoop ctx toks fuel v p
          else .ok (left, pos)
      | none => .ok (left, pos)
termination_by structural fuel _ _ => fuel

/-- widget/evaluateExpression.ts `parseUnary`. -/
def parseUnary (ctx : WidgetEvaluationContext) (toks : List String) :
    Nat → Nat → Except String (IVal × Nat)
  | 0, _ => .error "fuel exhausted"
  | fuel + 1, pos =>
      if toks.get? pos = some "-" then do
        let (v, p) ← parseUnary ctx toks fuel (pos + 1)
        match v with
        | .arr l => .ok (.arr (l.map JNum.neg), p)
        | .n x => .ok (.n x.neg, p)
      else parsePost ctx toks fuel pos
termination_by structural fuel _ => fuel

/-- widget/evaluateExpression.ts `parsePostfix` entry. -/
def parsePost (ctx : WidgetEvaluationContext) (toks : List String) :
    Nat → Nat → Except String (IVal × Nat)
  | 0, _ => .error "fuel exhausted"
  | fuel + 1, pos => do
      let (v, p) ← parsePrim ctx toks fuel pos
      parsePostLoop ctx toks fuel v p
termination_by structural fuel _ => fuel

/-- The `.field` / `.time("base")` postfix loop. -/
def parsePostLoop (ctx : WidgetEvaluationContext) (toks : List String) :
    Nat → IVal → Nat → Except String (IVal × Nat)
  | 0, _, _ => .error "fuel exhausted"
  | fuel + 1, value, pos =>
      if toks.get? pos = some "." then
        let fieldName := (toks.get? (pos + 1)).getD ""
        if fieldName = "time" ∧ toks.get? (pos + 2) = some "(" then
          match toks.get? (pos + 3) with
          | none => .error "time() requires a quoted string argument, e.g. time(\"t\")"
          | some argToken =>
              if ¬ (strStartsWith argToken "\"" ∧ strEndsWith argToken "\"") then
                .error "time() requires a quoted string argument, e.g. time(\"t\")"
              else
                let base := String.mk (argToken.data.drop 1 |>.dropLast)
                if toks.get? (pos + 4) ≠ some ")" then
                  .error "Expected ) after time() argument"
                else
                  match evaluateTimeOnCollection value base ctx with
                  | .error e => .error e
                  | .ok l => parsePostLoop ctx toks fuel (.arr l) (pos + 5)
        else
          match accessField value fieldName ctx with
          | .error e => .error e
          | .ok v => parsePostLoop ctx toks fuel v (pos + 2)
      else .ok (value, pos)
termination_by structural fuel _ _ => fuel

/-- widget/evaluateExpression.ts `parsePrimary`: parenthesised expression,
numeric literal, `sum`/`avg`/`count` call, dataset alias (a collection handle
rendered as the index array `entries.map((_, i) => i)`), otherwise unknown. -/
def parsePrim (ctx : WidgetEvaluationContext) (toks : List String) :
    Nat → Nat → Except String (IVal × Nat)
  | 0, _ => .error "fuel exhausted"
  | fuel + 1, pos =>
      match toks.get? pos with
      | none => .error "Unknown token: undefined"
      | some token =>
          if token = "(" then do
            let (v, p) ← parseAddSub ctx toks fuel (pos + 1)
            if toks.get? p = some ")" then .ok (v, p + 1)
            else .error "Expected )"
          else if isNumLit token then .ok (.n (numLitVal token), pos + 1)
          else if token = "sum" ∨ token = "avg" ∨ token = "count" then
            if toks.get? (pos + 1) ≠ some "(" then
              .error ("Expected ( after " ++ token)
            else do
              let (arg, p) ← parseAddSub ctx toks fuel (pos + 2)
              if toks.get? p ≠ some ")" then
                .error ("Expected ) after " ++ token ++ " argument")
              else
                match applyAggregation token arg with
                | .error e => .error e
                | .ok v => .ok (.n v, p + 1)
          else
            match lookupA ctx.datasets token with
            | some entries =>
                .ok (.arr ((List.range entries.length).map (fun i => JNum.ofInt i)), pos + 1)
            | none => .error ("Unknown token: " ++ token)
termination_by structural fuel _ => fuel

end

/-- widget/evaluateExpression.ts `evaluateWidgetExpression`: tokenize, parse
from position 0 (trailing tokens are ignored), require a scalar result. -/
def evaluateWidgetExpression (fuel : Nat) (expression : String)
    (ctx : WidgetEvaluationContext) : Except String JNum :=
  let toks := tokenize expression
  match parseAddSub ctx toks fuel 0 with
  | .error e => .error e
  | .ok (.arr l, _) =>
      .error ("Expression must evaluate to a scalar, got array of " ++ toString l.length ++
        " values")
  | .ok (.n v, _) => .ok v

/-- The header regex `^WIDGET\s+"([^"]+)"$`. -/
def matchWidgetHeader (line : String) : Option String := do
  let cs ← stripLit "WIDGET".data line.data
  let cs ← stripWs1 cs
  let cs ← stripChar '"' cs
  let name := cs.takeWhile (fun c => c ≠ '"')
  let rest := cs.dropWhile (fun c => c ≠ '"')
  if name.isEmpty then none
  else
    match rest with
    | ['"'] => some (String.mk name)
    | _ => none

/-- The dataset regex `^(\w+)\s*=\s*(\w+)$`: strictly `alias = DEF` with
nothing after the definition code. -/
def matchDataset (line : String) : Option (String × String) :=
  let w1 := line.data.takeWhile isWordChar
  let r1 := line.data.dropWhile isWordChar
  if w1.isEmpty then none
  else
    match r1.dropWhile Char.isWhitespace with
    | '=' :: r3 =>
        let r4 := r3.dropWhile Char.isWhitespace
        let w2 := r4.takeWhile isWordChar
        let r5 := r4.dropWhile isWordChar
        if w2.isEmpty ∨ ¬ r5.isEmpty then none
        else some (String.mk w1, String.mk w2)
    | _ => none

/-- One alternation branch of the computed-field regex after the label:
`(int|float)\s*=\s*(.+)$`. -/
def matchFieldTy (lit : String) (dt : WDatatype) (label : List Char) (cs : List Char) :
    Option (String × WDatatype × String) := do
  let r ← stripLit lit.data cs
  let r := r.dropWhile Char.isWhitespace
  let r ← stripChar '=' r
  let r := r.dropWhile Char.isWhitespace
  if r.isEmpty then none else some (String.mk label, dt, String.mk r)

/-- The computed-field regex `^"([^"]+)":\s*(int|float)\s*=\s*(.+)$`. -/
def matchComputedField (line : String) : Option (String × WDatatype × String) := do
  let cs ← stripChar '"' line.data
  let label := cs.takeWhile (fun c => c ≠ '"')
  let rest := cs.dropWhile (fun c => c ≠ '"')
  if label.isEmpty then none
  else
    let rest ← stripChar '"' rest
    let rest ← stripChar ':' rest
    let rest := rest.dropWhile Char.isWhitespace
    match matchFieldTy "int" WDatatype.int label rest with
    | some r => some r
    | none => matchFieldTy "float" WDatatype.float label rest

/-- The blank-line skipping loops of `parseWidget`. -/
def skipBlanks : Nat → List String → Nat → Nat
  | 0, _, i => i
  | fuel + 1, lines, i =>
      match lines.get? i with
      | some l => if jsTrim l = "" then skipBlanks fuel lines (i + 1) else i
      | none => i

/-- widget/parseWidget.ts `parseWidgetHeader`. -/
def parseWidgetHeader (lines : List String) (lineIndex : Nat) :
    Except WidgetParseError (String × Nat) :=
  if lines.length ≤ lineIndex then
    .error ⟨"Expected WIDGET declaration", some (lineIndex + 1), none⟩
  else
    let line := jsTrim ((lines.get? lineIndex).getD "")
    match matchWidgetHeader line with
    | some name => .ok (name, lineIndex + 1)
    | none =>
        .error ⟨"Invalid WIDGET declaration. Expected: WIDGET \"<name>\"",
          some (lineIndex + 1), some ("Got: " ++ line)⟩

/-- widget/parseWidget.ts `parseDatasetDeclaration`: matches only
`alias = DEF` (no trailing clause survives the `$`-anchored regex). -/
def parseDatasetDeclaration (lines : List String) (lineIndex : Nat) :
    Except WidgetParseError (DatasetDeclaration × Nat) :=
  if lines.length ≤ lineIndex then
    .error ⟨"Expected dataset declaration", some (lineIndex + 1), none⟩
  else
    let line := jsTrim ((lines.get? lineIndex).getD "")
    match matchDataset line with
    | some (a, d) => .ok (⟨a, d⟩, lineIndex + 1)
    | none =>
        .error ⟨"Invalid dataset declaration. Expected: alias = DEF",
          some (lineIndex + 1), some ("Got: " ++ line)⟩

/-- widget/parseWidget.ts `parseComputedField`. -/
def parseComputedField (lines : List String) (lineIndex : Nat) :
    Except WidgetParseError (ComputedField × Nat) :=
  if lines.length ≤ lineIndex then
    .error ⟨"Expected computed field", some (lineIndex + 1), none⟩
  else
    let line := jsTrim ((lines.get? lineIndex).getD "")
    match matchComputedField line with
    | some (label, dt, expr) => .ok (⟨label, dt, jsTrim expr⟩, lineIndex + 1)
    | none =>
        .error ⟨"Invalid computed field. Expected: \"label\": type = expression",
          some (lineIndex + 1), some ("Got: " ++ line)⟩

/-- The field-collection loop of `parseWidget` (until `END` or end of input). -/
def fieldLoop : Nat → List String → Nat → List ComputedField →
    Except WidgetParseError (List ComputedField × Nat)
  | 0, _, i, acc => .ok (acc, i)
  | fuel + 1, lines, i, acc =>
      match lines.get? i with
      | none => .ok (acc, i)
      | some l =>
          let line := jsTrim l
          if line = "" then fieldLoop fuel lines (i + 1) acc
          else if line = "END" then .ok (acc, i)
          else
            match parseComputedField lines i with
            | .error e => .error e
            | .ok (f, next) => fieldLoop fuel lines next (acc ++ [f])

/-- widget/parseWidget.ts `parseWidget`. -/
def parseWidget (source : String) : Except WidgetParseError ParsedWidget := do
  let lines := splitOnChar '\n' source
  let i0 := skipBlanks lines.length lines 0
  let (name, afterHeader) ← parseWidgetHeader lines i0
  let i1 := skipBlanks lines.length lines afterHeader
  let (dataset, afterDataset) ← parseDatasetDeclaration lines i1
  let i2 := skipBlanks lines.length lines afterDataset
  let (computedFields, i3) ← fieldLoop (lines.length + 1) lines i2 []
  if lines.length ≤ i3 ∨ jsTrim ((lines.get? i3).getD "") ≠ "END" then
    .error ⟨"Missing END keyword", some (i3 + 1), none⟩
  else if computedFields.isEmpty then
    .error ⟨"Widget must have at least one computed field", some (i3 + 1), none⟩
  else .ok ⟨name, dataset, computedFields⟩

/-- runWidget.ts `RunWidgetResult` (the widget name and `label ↦ number` map
in declaration order, or a single error string). -/
inductive RunRes where
  | ok : String → List (String × JNum) → RunRes
  | err : String → RunRes
deriving DecidableEq, Repr

/-- The `Parse error: ...` string interpolation of runWidget.ts. -/
def renderParseError (e : WidgetParseError) : String :=
  "Parse error: " ++ e.message ++
    (match e.lineNumber with
     | some n => " (line " ++ toString n ++ ")"
     | none => "") ++
    (match e.details with
     | some d => " - " ++ d
     | none => "")

/-- The computed-field evaluation loop of `runWidgetWithData` (and
`runWidget`): the first failing field aborts the whole run with its error;
successful values are floored for `int` fields. -/
def evalFields (fuel : Nat) (ctx : WidgetEvaluationContext) :
    List ComputedField → Except String (List (String × JNum))
  | [] => .ok []
  | f :: rest =>
      match evaluateWidgetExpression fuel f.expression ctx with
      | .error e => .error ("Evaluation error in field \"" ++ f.label ++ "\": " ++ e)
      | .ok v =>
          let value : JNum :=
            match f.datatype with
            | .int => .ofInt v.floor
            | .float => v
          match evalFields fuel ctx rest with
          | .error e => .error e
          | .ok r => .ok ((f.label, value) :: r)

/-- runWidget.ts `runWidgetWithData`: parse, bind the dataset alias to the
provided entries, then evaluate each computed field in order. -/
def runWidgetWithData (fuel : Nat) (widgetSource : String) (entries : List LoadedEntry) :
    RunRes :=
  match parseWidget widgetSource with
  | .error e => .err (renderParseError e)
  | .ok widget =>
      let ctx : WidgetEvaluationContext :=
        ⟨[(widget.dataset.datasetAlias, entries)], widget.dataset.definitionCode⟩
      match evalFields fuel ctx widget.computedFields with
      | .error e => .err e
      | .ok result => .ok widget.name result

end WidgetDsl

namespace Engine

/-- formulaEngine `tokenize`: whitespace, `()[].,` delimiters, `+-*/%^`
operators, the two-character `//` and `==` checks, double-quoted strings,
identifier accumulation.  The `//` branch is kept in source order after the
single-character operator branch, which already consumes `/` — it is therefore
dead code, exactly as in the source. -/
def tokenizeGo : Nat → List Char → List Char → List String → List String
  | _, [], cur, toks => pushCur cur toks
  | 0, _ :: _, cur, toks => pushCur cur toks
  | fuel + 1, c :: rest, cur, toks =>
      if c.isWhitespace then tokenizeGo fuel rest [] (pushCur cur toks)
      else if isDelimChar c then tokenizeGo fuel rest [] (pushCur cur toks ++ [String.mk [c]])
      else if isOpChar6 c then tokenizeGo fuel rest [] (pushCur cur toks ++ [String.mk [c]])
      else if c = '/' ∧ rest.head? = some '/' then
        tokenizeGo fuel rest.tail [] (pushCur cur toks ++ ["//"])
      else if c = '=' ∧ rest.head? = some '=' then
        tokenizeGo fuel rest.tail [] (pushCur cur toks ++ ["=="])
      else if c = '"' then
        let p := spanToQuote rest
        tokenizeGo fuel p.2 [] (pushCur cur toks ++ [String.mk ('"' :: p.1 ++ ['"'])])
      else tokenizeGo fuel rest (cur ++ [c]) toks

def tokenize (formula : String) : List String :=
  tokenizeGo formula.data.length formula.data [] []

/-- The runtime value domain of the formula engine (`EvaluableValue`): null,
scalars, entry references, and arrays.  A single list constructor covers the
number/string/boolean/entry/mixed array cases — the TS type casts do not
change the runtime values. -/
inductive EV where
  | null : EV
  | num : JNum → EV
  | str : String → EV
  | bool : Bool → EV
  | date : DateT → EV
  | entry : ResolvedEntry → EV
  | list : List EV → EV

/-- `isResolvedEntry` on a runtime value. -/
def isEntryEV : EV → Bool
  | .entry _ => true
  | _ => false

/-- `isResolvedEntryArray`: a non-empty array whose first element is an entry. -/
def isEntryArrEV : EV → Bool
  | .list (x :: _) => isEntryEV x
  | _ => false

def attrValToEV : Option AttrVal → EV
  | none => .null
  | some (.num q) => .num q
  | some (.str s) => .str s
  | some (.bool b) => .bool b
  | some (.date d) => .date d

/-- The `as number` cast: evaluated programs only reach it with numbers (JS
would otherwise produce NaN or string concatenation, which no claim touches). -/
def asNum : EV → JNum
  | .num q => q
  | _ => 0

/-- formulaEngine `getFieldValue`: locate the field of the entry's metric by
name, collect the attribute values or entry references of the children tagged
with it, and collapse a single result to a scalar. -/
def getFieldValue (re : ResolvedEntry) (fieldName : String) (state : PipelineState) : EV :=
  match lookupA state.context.definitions re.entry.definitionId with
  | none => .null
  | some definition =>
      if definition.type ≠ .metric then .null
      else
        let fields := (lookupA state.context.fieldsByMetric definition.id).getD []
        match fields.find? (fun f => f.name = fieldName) with
        | none => .null
        | some targetField =>
            let matchingChildren :=
              re.children.filter (fun c => c.fieldId = some targetField.id)
            if matchingChildren.isEmpty then .null
            else
              let values := matchingChildren.filterMap (fun child =>
                match child.attributeEntry with
                | some ae => some (attrValToEV (getAttributeValue ae))
                | none =>
                    match child.metricEntry with
                    | some _ => some (.entry child)
                    | none => none)
              match values with
              | [v] => v
              | vs => .list vs

/-- formulaEngine `navigateField`: distribute over entry lists (flattening one
level), recurse into single entries, null otherwise.  A non-entry element
behind an entry head would crash the TS loop; it is carried through unchanged
here and is unreachable in every evaluated program below. -/
def navigateField (value : EV) (fieldName : String) (state : PipelineState) : EV :=
  match value with
  | .null => .null
  | .list (x :: xs) =>
      if isEntryEV x then
        let results := (x :: xs).foldl (fun acc item =>
          match item with
          | .entry e =>
              match getFieldValue e fieldName state with
              | .list l => acc ++ l
              | v => acc ++ [v]
          | other => acc ++ [other]) []
        match results with
        | [v] => v
        | vs => .list vs
      else .null
  | .entry e => getFieldValue e fieldName state
  | _ => .null

/-- formulaEngine `toFormulaValue`: entry references and entry arrays become
null; everything else passes through. -/
def toFormulaValue : EV → EV
  | .entry _ => .null
  | .list (x :: xs) => if isEntryEV x then .null else .list (x :: xs)
  | v => v

/-- formulaEngine `evaluateTimeMethod`: sum of the `value_int` columns of
`time_type` children whose subdivision equals the base or starts with
`base/`; 0 when the metric has no `time_type` field. -/
def evaluateTimeMethod (re : ResolvedEntry) (base : String) (state : PipelineState) :
    PResult EV :=
  if ¬ (base = "t" ∨ base = "m" ∨ base = "p" ∨ base = "n") then
    .err (.formulaError ("Invalid time base \"" ++ base ++ "\". Must be one of: t, m, p, n")
      "" "" none)
  else
    match lookupA state.context.definitions re.entry.definitionId with
    | none => .err (.formulaError "time() can only be called on metric entries" "" "" none)
    | some definition =>
        if definition.type ≠ .metric then
          .err (.formulaError "time() can only be called on metric entries" "" "" none)
        else
          let fields := (lookupA state.context.fieldsByMetric definition.id).getD []
          match fields.find? (fun f => f.name = "time_type") with
          | none => .ok (.num 0)
          | some timeTypeField =>
              let total := JNum.sumList (re.children.filterMap (fun child =>
                if child.fieldId ≠ some timeTypeField.id then none
                else
                  match child.attributeEntry with
                  | none => none
                  | some ae =>
                      let subdivision := (child.entry.subdivision).getD ""
                      if subdivision = base ∨ strStartsWith subdivision (base ++ "/") then
                        match ae.valueInt with
                        | some (.num v) => some v
                        | _ => none
                      else none))
              .ok (.num total)

/-- formulaEngine `applyScalarOp` over JS numbers. -/
def applyScalarOp (left : JNum) (op : String) (right : JNum) : PResult JNum :=
  if op = "+" then .ok (left.add right)
  else if op = "-" then .ok (left.sub right)
  else if op = "*" then .ok (left.mul right)
  else if op = "/" then
    if right = 0 then .err (.formulaError "Division by zero" "" "" none)
    else .ok (left.div right)
  else if op = "//" then
    if right = 0 then .err (.formulaError "Division by zero" "" "" none)
    else .ok (.ofInt (left.div right).floor)
  else if op = "%" then
    if right = 0 then .err (.formulaError "Modulo by zero" "" "" none)
    else .ok (left.jsMod right)
  else if op = "^" then .ok (left.powJs right)
  else .err (.formulaError ("Unknown operator: " ++ op) "" "" none)

def zipScalarOps (op : String) : List EV → List EV → PResult (List EV)
  | [], _ => .ok []
  | _ :: _, [] => .ok []
  | l :: ls, r :: rs =>
      match applyScalarOp (asNum l) op (asNum r) with
      | .err e => .err e
      | .ok v =>
          match zipScalarOps op ls rs with
          | .err e => .err e
          | .ok vs => .ok (.num v :: vs)

def mapScalarOpL (op : String) (r : JNum) : List EV → PResult (List EV)
  | [] => .ok []
  | l :: ls =>
      match applyScalarOp (asNum l) op r with
      | .err e => .err e
      | .ok v =>
          match mapScalarOpL op r ls with
          | .err e => .err e
          | .ok vs => .ok (.num v :: vs)

def mapScalarOpR (op : String) (l : JNum) : List EV → PResult (List EV)
  | [] => .ok []
  | r :: rs =>
      match applyScalarOp l op (asNum r) with
      | .err e => .err e
      | .ok v =>
          match mapScalarOpR op l rs with
          | .err e => .err e
          | .ok vs => .ok (.num v :: vs)

/-- formulaEngine `applyOperator`: null propagates to null; list/list requires
equal lengths; list/scalar broadcasts; scalar/scalar applies directly. -/
def applyOperator (left : EV) (op : String) (right : EV) : PResult EV :=
  match left, right with
  | .null, _ => .ok .null
  | _, .null => .ok .null
  | .list ls, .list rs =>
      if ls.length ≠ rs.length then
        .err (.formulaError ("List length mismatch: " ++ toString ls.length ++ " vs " ++
          toString rs.length) "" "" none)
      else
        match zipScalarOps op ls rs with
        | .err e => .err e
        | .ok vs => .ok (.list vs)
  | .list ls, r =>
      match mapScalarOpL op (asNum r) ls with
      | .err e => .err e
      | .ok vs => .ok (.list vs)
  | l, .list rs =>
      match mapScalarOpR op (asNum l) rs with
      | .err e => .err e
      | .ok vs => .ok (.list vs)
  | l, r =>
      match applyScalarOp (asNum l) op (asNum r) with
      | .err e => .err e
      | .ok v => .ok (.num v)

def listMinOf : JNum → List JNum → JNum
  | acc, [] => acc
  | acc, x :: xs => listMinOf (if JNum.lt x acc then x else acc) xs

def listMaxOf : JNum → List JNum → JNum
  | acc, [] => acc
  | acc, x :: xs => listMaxOf (if JNum.lt acc x then x else acc) xs

/-- formulaEngine `applyAggregation`: null and the empty list are errors in
entry context; scalars coerce to one-element lists. -/
def applyAggregation (fn : String) (values : EV) : PResult JNum :=
  match values with
  | .null => .err (.formulaError ("Cannot apply " ++ fn ++ " to null") "" "" none)
  | v =>
      let nums : List JNum :=
        match v with
        | .list l => l.map asNum
        | x => [asNum x]
      if nums.length = 0 then
        .err (.formulaError ("Cannot apply " ++ fn ++ " to empty list") "" "" none)
      else if fn = "sum" then .ok (JNum.sumList nums)
      else if fn = "avg" then .ok ((JNum.sumList nums).div (.ofInt nums.length))
      else if fn = "min" then
        .ok (match nums with | [] => 0 | x :: xs => listMinOf x xs)
      else if fn = "max" then
        .ok (match nums with | [] => 0 | x :: xs => listMaxOf x xs)
      else if fn = "count" then .ok (.ofInt nums.length)
      else .err (.formulaError ("Unknown aggregation function: " ++ fn) "" "" none)

/-- `parseWhereClause` condition capture: collect tokens up to the matching
closing parenthesis (depth starts at 1; the closing parenthesis is consumed
but not captured); returns the captured tokens and the number of tokens
consumed. -/
def captureCond : List String → Nat → List String × Nat
  | [], _ => ([], 0)
  | t :: rest, depth =>
      if t = "(" then
        let p := captureCond rest (depth + 1)
        (t :: p.1, p.2 + 1)
      else if t = ")" then
        if depth = 1 then ([], 1)
        else
          let p := captureCond rest (depth - 1)
          (t :: p.1, p.2 + 1)
      else
        let p := captureCond rest depth
        (t :: p.1, p.2 + 1)

/-- The filtering step of `parseWhereClause`: only the exact
`subdivision in "prefix"` shape (first token `subdivision`, an `in` token
somewhere) selects entries; every other captured condition leaves the filtered
list empty. -/
def whereFilter (entries : List ResolvedEntry) (conditionTokens : List String) :
    List ResolvedEntry :=
  match conditionTokens.findIdx? (fun t => t = "in") with
  | some i =>
      if conditionTokens.head? = some "subdivision" then
        let pfx := ((conditionTokens.get? (i + 1)).map (removeChar '"')).getD ""
        entries.filter (fun e =>
          let subdivision := (e.entry.subdivision).getD ""
          subdivision = pfx ∨ strStartsWith subdivision (pfx ++ "/"))
      else []
  | none => []

/-- formulaEngine `parseWhereClause`: an error unless the receiver is a
non-empty entry array, otherwise the (possibly empty) filtered entry list.
A non-entry element behind an entry head would crash the TS loop; such
elements are dropped here and unreachable in every evaluated program below. -/
def parseWhere (list : EV) (toks : List String) (pos : Nat) : PResult (EV × Nat) :=
  if ¬ isEntryArrEV list then
    .err (.formulaError "where() can only be applied to entry lists" "" "" none)
  else
    let entries :=
      match list with
      | .list l => l.filterMap (fun v => match v with | .entry e => some e | _ => none)
      | _ => []
    let p := captureCond (toks.drop pos) 1
    .ok (.list ((whereFilter entries p.1).map EV.entry), pos + p.2)

/-- formulaEngine `EvaluationContext`. -/
structure EvalCtx where
  self : ResolvedEntry
  parent : Option ResolvedEntry
  root : ResolvedEntry
  state : PipelineState
  fieldValues : List (String × EV)

mutual

/-- formulaEngine `parseExpression`. -/
def parseExpr (ctx : EvalCtx) (toks : List String) :
    Nat → Nat → PResult (EV × Nat)
  | 0, _ => .err (.formulaError "fuel exhausted" "" "" none)
  | fuel + 1, pos => parseAddSub ctx toks fuel pos
termination_by structural fuel _ => fuel

/-- formulaEngine `parseAddSub` entry. -/
def parseAddSub (ctx : EvalCtx) (toks : List String) :
    Nat → Nat → PResult (EV × Nat)
  | 0, _ => .err (.formulaError "fuel exhausted" "" "" none)
  | fuel + 1, pos =>
      match parseMulDiv ctx toks fuel pos with
      | .err e => .err e
      | .ok (left, p) => parseAddSubLoop ctx toks fuel left p
termination_by structural fuel _ => fuel

/-- The `while` accumulation of `parseAddSub` over `+` and `-`. -/
def parseAddSubLoop (ctx : EvalCtx) (toks : List String) :
    Nat → EV → Nat → PResult (EV × Nat)
  | 0, _, _ => .err (.formulaError "fuel exhausted" "" "" none)
  | fuel + 1, left, pos =>
      match toks.get? pos with
      | some op =>
          if op = "+" ∨ op = "-" then
            match parseMulDiv ctx toks fuel (pos + 1) with
            | .err e => .err e
            | .ok (right, p) =>
                match applyOperator (toFormulaValue left) op (toFormulaValue right) with
                | .err e => .err e
                | .ok v => parseAddSubLoop ctx toks fuel v p
          else .ok (left, pos)
      | none => .ok (left, pos)
termination_by structural fuel _ _ => fuel

/-- formulaEngine `parseMulDiv` entry. -/
def parseMulDiv (ctx : EvalCtx) (toks : List String) :
    Nat → Nat → PResult (EV × Nat)
  | 0, _ => .err (.formulaError "fuel exhausted" "" "" none)
  | fuel + 1, pos =>
      match parsePow ctx toks fuel pos with
      | .err e => .err e
      | .ok (left, p) => parseMulDivLoop ctx toks fuel left p
termination_by structural fuel _ => fuel

/-- The `while` accumulation of `parseMulDiv` over `*`, `/`, `//` and `%`
(the `//` case is dead because the tokenizer never emits that token). -/
def parseMulDivLoop (ctx : EvalCtx) (toks : List String) :
    Nat → EV → Nat → PResult (EV × Nat)
  | 0, _, _ => .err (.formulaError "fuel exhausted" "" "" none)
  | fuel + 1, left, pos =>
      match toks.get? pos with
      | some op =>
          if op = "*" ∨ op = "/" ∨ op = "//" ∨ op = "%" then
            match parsePow ctx toks fuel (pos + 1) with
            | .err e => .err e
            | .ok (right, p) =>
                match applyOperator (toFormulaValue left) op (toFormulaValue right) with
                | .err e => .err e
                | .ok v => parseMulDivLoop ctx toks fuel v p
          else .ok (left, pos)
      | none => .ok (left, pos)
termination_by structural fuel _ _ => fuel

/-- formulaEngine `parsePower` entry (left-associative `^`). -/
def parsePow (ctx : EvalCtx) (toks : List String) :
    Nat → Nat → PResult (EV × Nat)
  | 0, _ => .err (.formulaError "fuel exhausted" "" "" none)
  | fuel + 1, pos =>
      match parseUnary ctx toks fuel pos with
      | .err e => .err e
      | .ok (base, p) => parsePowLoop ctx toks fuel base p
termination_by structural fuel _ => fuel

def parsePowLoop (ctx : EvalCtx) (toks : List String) :
    Nat → EV → Nat → PResult (EV × Nat)
  | 0, _, _ => .err (.formulaError "fuel exhausted" "" "" none)
  | fuel + 1, base, pos =>
      if toks.get? pos = some "^" then
        match parseUnary ctx toks fuel (pos + 1) with
        | .err e => .err e
        | .ok (exp, p) =>
            match applyOperator (toFormulaValue base) "^" (toFormulaValue exp) with
            | .err e => .err e
            | .ok v => parsePowLoop ctx toks fuel v p
      else .ok (base, pos)
termination_by structural fuel _ _ => fuel

/-- formulaEngine `parseUnary`: unary minus negates numbers and broadcasts
over arrays (JS `-null` is `-0`, which `asNum` reproduces). -/
def parseUnary (ctx : EvalCtx) (toks : List String) :
    Nat → Nat → PResult (EV × Nat)
  | 0, _ => .err (.formulaError "fuel exhausted" "" "" none)
  | fuel + 1, pos =>
      if toks.get? pos = some "-" then
        match parseUnary ctx toks fuel (pos + 1) with
        | .err e => .err e
        | .ok (res, p) =>
            match toFormulaValue res with
            | .list l => .ok (.list (l.map (fun v => .num (asNum v).neg)), p)
            | val => .ok (.num (asNum val).neg, p)
      else parsePost ctx toks fuel pos
termination_by structural fuel _ => fuel

/-- formulaEngine `parsePostfix` entry. -/
def parsePost (ctx : EvalCtx) (toks : List String) :
    Nat → Nat → PResult (EV × Nat)
  | 0, _ => .err (.formulaError "fuel exhausted" "" "" none)
  | fuel + 1, pos =>
      match parsePrim ctx toks fuel pos with
      | .err e => .err e
      | .ok (v, p) => parsePostLoop ctx toks fuel v p
termination_by structural fuel _ => fuel

/-- The postfix `while` loop: `.where(...)`, `.time("base")`, `.field`, and
`[index]` on arrays, `/`-separated strings, or a pass-through otherwise. -/
def parsePostLoop (ctx : EvalCtx) (toks : List String) :
    Nat → EV → Nat → PResult (EV × Nat)
  | 0, _, _ => .err (.formulaError "fuel exhausted" "" "" none)
  | fuel + 1, value, pos =>
      if toks.get? pos = some "." then
        let fieldName := (toks.get? (pos + 1)).getD ""
        if fieldName = "where" ∧ toks.get? (pos + 2) = some "(" then
          match parseWhere value toks (pos + 3) with
          | .err e => .err e
          | .ok (v, p) => parsePostLoop ctx toks fuel v p
        else if fieldName = "time" ∧ toks.get? (pos + 2) = some "(" then
          match toks.get? (pos + 3) with
          | none =>
              .err (.formulaError
                "time() requires a quoted string argument, e.g. time(\"t\")" "" "" none)
          | some argToken =>
              if ¬ (strStartsWith argToken "\"" ∧ strEndsWith argToken "\"") then
                .err (.formulaError
                  "time() requires a quoted string argument, e.g. time(\"t\")" "" "" none)
              else
                let base := String.mk (argToken.data.drop 1 |>.dropLast)
                if toks.get? (pos + 4) ≠ some ")" then
                  .err (.formulaError "Expected ) after time() argument" "" "" none)
                else
                  match value with
                  | .entry e =>
                      match evaluateTimeMethod e base ctx.state with
                      | .err er => .err er
                      | .ok v => parsePostLoop ctx toks fuel v (pos + 5)
                  | _ =>
                      .err (.formulaError
                        "time() can only be called on a metric entry (e.g., self.time(\"t\"))"
                        "" "" none)
        else parsePostLoop ctx toks fuel (navigateField value fieldName ctx.state) (pos + 2)
      else if toks.get? pos = some "[" then
        match parseExpr ctx toks fuel (pos + 1) with
        | .err e => .err e
        | .ok (idxV, p) =>
            if toks.get? p ≠ some "]" then
              .err (.formulaError "Expected ]" "" "" none)
            else
              let index := asNum (toFormulaValue idxV)
              match value with
              | .list l =>
                  if JNum.lt index 0 ∨ ¬ JNum.lt index (.ofInt l.length) then
                    .err (.formulaError ("Index " ++ index.text ++
                      " out of bounds for array of length " ++ toString l.length) "" "" none)
                  else parsePostLoop ctx toks fuel ((l.get? index.floor.toNat).getD .null) (p + 1)
              | .str str =>
                  let parts := splitOnChar '/' str
                  if JNum.lt index 0 ∨ ¬ JNum.lt index (.ofInt parts.length) then
                    .err (.formulaError ("Index " ++ index.text ++
                      " out of bounds for hierarchy of length " ++ toString parts.length)
                      "" "" none)
                  else
                    parsePostLoop ctx toks fuel (.str ((parts.get? index.floor.toNat).getD ""))
                      (p + 1)
              | other => parsePostLoop ctx toks fuel other (p + 1)
      else .ok (value, pos)
termination_by structural fuel _ _ => fuel

/-- formulaEngine `parsePrimary`: parenthesised expression, numeric and string
literals, aggregation calls, the context identifiers, and the null fallthrough
for every other identifier — the `fieldValues` map in the context is never
consulted. -/
def parsePrim (ctx : EvalCtx) (toks : List String) :
    Nat → Nat → PResult (EV × Nat)
  | 0, _ => .err (.formulaError "fuel exhausted" "" "" none)
  | fuel + 1, pos =>
      match toks.get? pos with
      | none => .err (.formulaError "token out of range" "" "" none)
      | some token =>
          if token = "(" then
            match parseExpr ctx toks fuel (pos + 1) with
            | .err e => .err e
            | .ok (v, p) =>
                if toks.get? p = some ")" then .ok (v, p + 1)
                else .err (.formulaError "Expected )" "" "" none)
          else if isNumLit token then .ok (.num (numLitVal token), pos + 1)
          else if strStartsWith token "\"" ∧ strEndsWith token "\"" then
            .ok (.str (String.mk (token.data.drop 1 |>.dropLast)), pos + 1)
          else if token = "sum" ∨ token = "avg" ∨ token = "min" ∨ token = "max" ∨
              token = "count" then
            if toks.get? (pos + 1) ≠ some "(" then
              .err (.formulaError ("Expected ( after " ++ token) "" "" none)
            else
              match parseExpr ctx toks fuel (pos + 2) with
              | .err e => .err e
              | .ok (arg, p) =>
                  if toks.get? p ≠ some ")" then
                    .err (.formulaError ("Expected ) after " ++ token ++ " argument") "" "" none)
                  else
                    match applyAggregation token (toFormulaValue arg) with
                    | .err e => .err e
                    | .ok v => .ok (.num v, p + 1)
          else if token = "self" then .ok (.entry ctx.self, pos + 1)
          else if token = "parent" then
            .ok ((match ctx.parent with | some p => .entry p | none => .null), pos + 1)
          else if token = "root" then .ok (.entry ctx.root, pos + 1)
          else if token = "path" then .ok (.str (joinSep "/" ctx.state.path), pos + 1)
          else if token = "division" then .ok (.str (joinSep "/" ctx.state.division), pos + 1)
          else if token = "subdivision" then
            .ok (.str (joinSep "/" ctx.state.subdivision), pos + 1)
          else .ok (.null, pos + 1)
termination_by structural fuel _ => fuel

end

/-- formulaEngine `evaluateExpression`: empty token streams are null; the
top-level parse starts at position 0 and ignores trailing tokens; the result
passes through `toFormulaValue`. -/
def evaluateExpression (fuel : Nat) (toks : List String) (ctx : EvalCtx) : PResult EV :=
  if toks.isEmpty then .ok .null
  else
    match parseExpr ctx toks fuel 0 with
    | .err e => .err e
    | .ok (v, _) => .ok (toFormulaValue v)

/-- formulaEngine `evaluateFormula`. -/
def evaluateFormula (fuel : Nat) (formula : String) (self : ResolvedEntry)
    (parent : Option ResolvedEntry) (root : ResolvedEntry) (state : PipelineState)
    (fieldValues : List (String × EV)) : PResult EV :=
  evaluateExpression fuel (tokenize formula) ⟨self, parent, root, state, fieldValues⟩

end Engine

end MApp

namespace MApp

/-- A minimal metric node used as the evaluation context of standalone formula
evaluations. -/
def probeEntry : ResolvedEntry :=
  .mk ⟨1, "u", "M", none, ⟨0, 0⟩, none, none, ⟨0, 0⟩, ⟨0, 0⟩⟩ (some ⟨1⟩) none none []

/-- A pipeline state with an empty context around `probeEntry`. -/
def probeState : PipelineState :=
  ⟨probeEntry, ⟨[], [], [], [], [], fun _ _ => []⟩, [], [], []⟩

end MApp

namespace MApp

/-- Anchored match of `lit[digits]` starting at the given characters: the
index value and the remaining characters. -/
def hierMatchAt (lit : String) (cs : List Char) : Option (Nat × List Char) := do
  let r ← stripLit lit.data cs
  let r ← stripChar '[' r
  let ds := r.takeWhile Char.isDigit
  let r2 := r.dropWhile Char.isDigit
  if ds.isEmpty then none
  else
    let r3 ← stripChar ']' r2
    some (digitsVal ds, r3)

/-- The anchored `^lit\[(\d+)\]$` test used by `isHierarchyOnlyFormula`. -/
def hierExact (lit : String) (f : String) : Option Nat :=
  match hierMatchAt lit f.data with
  | some (i, []) => some i
  | _ => none

/-- `isHierarchyOnlyFormula` (identical in populateFromSubdivision.ts and
applyFormulas.ts): the trimmed formula is exactly `subdivision[N]`,
`division[N]` or `path[N]`. -/
def isHierarchyOnlyFormula (formula : String) : Bool :=
  let trimmed := jsTrim formula
  (hierExact "subdivision" trimmed).isSome ∨ (hierExact "division" trimmed).isSome ∨
    (hierExact "path" trimmed).isSome

/-- The unanchored `exec` of `/lit\[(\d+)\]/`: the first match scanning left
to right. -/
def hierScan (lit : String) : List Char → Option Nat
  | [] => none
  | c :: rest =>
      match hierMatchAt lit (c :: rest) with
      | some (i, _) => some i
      | none => hierScan lit rest

/-- populateFromSubdivision.ts `extractHierarchyValue`: try the subdivision,
division and path patterns in that order; check the index against the
corresponding vector; out of range raises `SUBDIVISION_ERROR` carrying the
index and the vector's length. -/
def extractHierarchyValue (formula : String) (subdivision division path : List String) :
    PResult String :=
  match hierScan "subdivision" formula.data with
  | some index =>
      if subdivision.length ≤ index then
        .err (.subdivisionError ("Invalid subdivision index " ++ toString index ++
          ". Subdivision has " ++ toString subdivision.length ++ " elements: [" ++
          joinSep ", " subdivision ++ "]") "" formula)
      else .ok ((subdivision.get? index).getD "")
  | none =>
  match hierScan "division" formula.data with
  | some index =>
      if division.length ≤ index then
        .err (.subdivisionError ("Invalid division index " ++ toString index ++
          ". Division has " ++ toString division.length ++ " elements: [" ++
          joinSep ", " division ++ "]") "" formula)
      else .ok ((division.get? index).getD "")
  | none =>
  match hierScan "path" formula.data with
  | some index =>
      if path.length ≤ index then
        .err (.subdivisionError ("Invalid path index " ++ toString index ++
          ". Path has " ++ toString path.length ++ " elements: [" ++
          joinSep ", " path ++ "]") "" formula)
      else .ok ((path.get? index).getD "")
  | none => .ok ""

/-- In-place update of the first child matching a predicate (the mutation of
the `children.find(...)` result). -/
def overwriteFirst (p : ResolvedEntry → Bool) (f : ResolvedEntry → ResolvedEntry) :
    List ResolvedEntry → List ResolvedEntry
  | [] => []
  | c :: rest => if p c then f c :: rest else c :: overwriteFirst p f rest

namespace Populate

/-- The per-field body of populateFromSubdivision.ts `processEntry`: for each
hierarchy-only formula field, extract the indexed token, then overwrite the
existing attribute child tagged with the field or synthesize a new one (with
the next provisional id from the −1000 counter). -/
def populateFields (state : PipelineState) :
    List Field → ResolvedEntry → Int → PResult (ResolvedEntry × Int)
  | [], re, counter => .ok (re, counter)
  | field :: rest, re, counter =>
      if field.inputMode ≠ .formula then populateFields state rest re counter
      else
        match field.formula with
        | none => populateFields state rest re counter
        | some f =>
            if ¬ isHierarchyOnlyFormula f then populateFields state rest re counter
            else
              match extractHierarchyValue f state.subdivision state.division state.path with
              | .err e => .err (e.withFieldId field.id)
              | .ok v =>
                  match lookupA state.context.definitions field.baseDefinitionId with
                  | none => populateFields state rest re counter
                  | some baseDefinition =>
                      let isAttributeField := baseDefinition.type = .attribute
                      let isMetricReference := baseDefinition.type = .metric
                      if ¬ (isAttributeField ∨ isMetricReference) then
                        populateFields state rest re counter
                      else
                        let pred := fun (c : ResolvedEntry) =>
                          c.fieldId = some field.id ∧ c.attributeEntry.isSome
                        if (re.children.find? pred).isSome then
                          let newChildren := overwriteFirst pred (fun c =>
                            match c.attributeEntry with
                            | some ae =>
                                if isAttributeField then
                                  match lookupA state.context.attributeDefinitions
                                      baseDefinition.id with
                                  | some attrDef =>
                                      c.withAttributeEntry
                                        (some (setAttributeValue ae attrDef.datatype (.str v)))
                                  | none => c
                                else
                                  c.withAttributeEntry
                                    (some { ae with valueString := some (.str v) })
                            | none => c) re.children
                          populateFields state rest (re.withChildren newChildren) counter
                        else
                          let newId := counter
                          let newEntry : Entry :=
                            ⟨newId, re.entry.userId, field.baseDefinitionId,
                              some re.entry.id, re.entry.timestamp, re.entry.subdivision,
                              none, dateNow, dateNow⟩
                          let base : AttributeEntry :=
                            ⟨newId, field.id, none, none, none, none, none, none⟩
                          let newAttr :=
                            if isAttributeField then
                              match lookupA state.context.attributeDefinitions
                                  baseDefinition.id with
                              | some attrDef => setAttributeValue base attrDef.datatype (.str v)
                              | none => base
                            else { base with valueString := some (.str v) }
                          populateFields state rest
                            (re.withChildren (re.children ++
                              [.mk newEntry none (some newAttr) (some field.id) []]))
                            (counter + 1)

mutual

/-- populateFromSubdivision.ts `processEntry`: metric nodes run the field
loop, then every node recurses into its (possibly extended) children.  Fuel
decreases on every call; any sufficiently large budget behaves identically. -/
def processEntry (state : PipelineState) :
    Nat → ResolvedEntry → Int → PResult (ResolvedEntry × Int)
  | 0, _, _ => .err (.formulaError "fuel exhausted" "" "" none)
  | fuel + 1, re, counter =>
      match lookupA state.context.definitions re.entry.definitionId with
      | none =>
          match processChildren state fuel re.children counter with
          | .err e => .err e
          | .ok (cs, c') => .ok (re.withChildren cs, c')
      | some definition =>
          if definition.type ≠ .metric then
            match processChildren state fuel re.children counter with
            | .err e => .err e
            | .ok (cs, c') => .ok (re.withChildren cs, c')
          else
            let metricFields := (lookupA state.context.fieldsByMetric definition.id).getD []
            match populateFields state metricFields re counter with
            | .err e => .err e
            | .ok (re', c1) =>
                match processChildren state fuel re'.children c1 with
                | .err e => .err e
                | .ok (cs, c2) => .ok (re'.withChildren cs, c2)
termination_by structural fuel _ _ => fuel

def processChildren (state : PipelineState) :
    Nat → List ResolvedEntry → Int → PResult (List ResolvedEntry × Int)
  | 0, _, _ => .err (.formulaError "fuel exhausted" "" "" none)
  | _ + 1, [], counter => .ok ([], counter)
  | fuel + 1, c :: rest, counter =>
      match processEntry state fuel c counter with
      | .err e => .err e
      | .ok (c', c1) =>
          match processChildren state fuel rest c1 with
          | .err e => .err e
          | .ok (cs, c2) => .ok (c' :: cs, c2)
termination_by structural fuel _ _ => fuel

end

end Populate

/-- populateFromSubdivision.ts `populateFromSubdivision`: id counter starts at
−1000 and is post-incremented on every synthesized child. -/
def populateFromSubdivision (fuel : Nat) (state : PipelineState) : PResult PipelineState :=
  match Populate.processEntry state fuel state.root (-1000) with
  | .err e => .err e
  | .ok (root', _) => .ok { state with root := root' }

namespace Convert

/-- The in-place replacement step of convertToInstances.ts `processEntry` for
one child: metric-reference placeholders with a non-null value are resolved
through the oracle; 0 matches or more than 1 match abort with
`INSTANCE_RESOLUTION_ERROR`; exactly 1 match replaces the child, keeping the
field slot and taking entry, metric marker and children from the instance. -/
def convReplaceChild (state : PipelineState) (child : ResolvedEntry) : PResult ResolvedEntry :=
  match child.fieldId with
  | none => .ok child
  | some fid =>
      match lookupA state.context.fields fid with
      | none => .ok child
      | some field =>
          match lookupA state.context.definitions field.baseDefinitionId with
          | none => .ok child
          | some baseDefinition =>
              if baseDefinition.type ≠ .metric then .ok child
              else
                match lookupA state.context.metricDefinitions baseDefinition.id with
                | none => .ok child
                | some metricDef =>
                    match metricDef.primaryIdentifierFieldId with
                    | none => .ok child
                    | some _ =>
                        if child.metricEntry.isSome ∧ child.attributeEntry.isNone then .ok child
                        else
                          match child.attributeEntry with
                          | none => .ok child
                          | some ae =>
                              match getAttributeValue ae with
                              | none => .ok child
                              | some identifierValue =>
                                  let found :=
                                    state.context.existingEntries baseDefinition.id
                                      identifierValue
                                  if found.length = 0 then
                                    .err (.instanceResolutionError
                                      ("No matching instance found for metric \"" ++
                                        baseDefinition.code ++ "\" with identifier \"" ++
                                        identifierValue.text ++ "\"")
                                      field.id baseDefinition.id identifierValue 0)
                                  else if found.length > 1 then
                                    .err (.instanceResolutionError
                                      ("Ambiguous reference: " ++ toString found.length ++
                                        " instances found for metric \"" ++
                                        baseDefinition.code ++ "\" with identifier \"" ++
                                        identifierValue.text ++ "\"")
                                      field.id baseDefinition.id identifierValue found.length)
                                  else
                                    match found.head? with
                                    | some inst =>
                                        .ok (.mk inst.entry inst.metricEntry none
                                          child.fieldId inst.children)
                                    | none => .ok child

/-- The indexed `for` loop over the children of a metric node. -/
def convChildLoop (state : PipelineState) : List ResolvedEntry → PResult (List ResolvedEntry)
  | [] => .ok []
  | c :: rest =>
      match convReplaceChild state c with
      | .err e => .err e
      | .ok c' =>
          match convChildLoop state rest with
          | .err e => .err e
          | .ok cs => .ok (c' :: cs)

mutual

/-- convertToInstances.ts `processEntry`: metric nodes first replace their
reference children, then every node recurses into the resulting children. -/
def processEntry (state : PipelineState) : Nat → ResolvedEntry → PResult ResolvedEntry
  | 0, _ => .err (.formulaError "fuel exhausted" "" "" none)
  | fuel + 1, re =>
      match lookupA state.context.definitions re.entry.definitionId with
      | none =>
          match processChildren state fuel re.children with
          | .err e => .err e
          | .ok cs => .ok (re.withChildren cs)
      | some definition =>
          if definition.type ≠ .metric then
            match processChildren state fuel re.children with
            | .err e => .err e
            | .ok cs => .ok (re.withChildren cs)
          else
            match convChildLoop state re.children with
            | .err e => .err e
            | .ok cs =>
                match processChildren state fuel cs with
                | .err e => .err e
                | .ok cs' => .ok (re.withChildren cs')
termination_by structural fuel _ => fuel

def processChildren (state : PipelineState) : Nat → List ResolvedEntry →
    PResult (List ResolvedEntry)
  | 0, _ => .err (.formulaError "fuel exhausted" "" "" none)
  | _ + 1, [] => .ok []
  | fuel + 1, c :: rest =>
      match processEntry state fuel c with
      | .err e => .err e
      | .ok c' =>
          match processChildren state fuel rest with
          | .err e => .err e
          | .ok cs => .ok (c' :: cs)
termination_by structural fuel _ => fuel

end

end Convert

/-- convertToInstances.ts `convertToInstances`. -/
def convertToInstances (fuel : Nat) (state : PipelineState) : PResult PipelineState :=
  match Convert.processEntry state fuel state.root with
  | .err e => .err e
  | .ok root' => .ok { state with root := root' }

end MApp

namespace MApp

def defTypeText : DefType → String
  | .metric => "metric"
  | .attribute => "attribute"

/-- The scalar formula result written through `setAttributeValue` (only
scalar shapes survive the null/array checks before this conversion). -/
def evToAttr : Engine.EV → AttrVal
  | .num q => .num q
  | .str s => .str s
  | .bool b => .bool b
  | .date d => .date d
  | _ => .num 0

namespace ApplyF

/-- The per-field loop body of applyFormulas.ts `processEntry`: skip input and
hierarchy-only fields, validate the attribute base, evaluate the formula with
the node's accumulating `fieldValues` map, reject null and array results, then
overwrite the attribute child tagged with the field or synthesize one (next id
from the −2000 counter).  `efuel` is the evaluator's budget. -/
def applyFields (state : PipelineState) (efuel : Nat) (parent : Option ResolvedEntry)
    (root : ResolvedEntry) :
    List Field → ResolvedEntry → List (String × Engine.EV) → Int →
      PResult (ResolvedEntry × Int)
  | [], re, _, counter => .ok (re, counter)
  | field :: rest, re, fieldValues, counter =>
      if field.inputMode ≠ .formula then applyFields state efuel parent root rest re fieldValues counter
      else
        match field.formula with
        | none => applyFields state efuel parent root rest re fieldValues counter
        | some f =>
            if isHierarchyOnlyFormula f then
              applyFields state efuel parent root rest re fieldValues counter
            else
              match lookupA state.context.definitions field.baseDefinitionId with
              | none =>
                  .err (.formulaError ("Formula field \"" ++ field.name ++
                    "\" has invalid baseDefinitionId: expected AttributeDefinition, got undefined")
                    field.id f none)
              | some baseDefinition =>
                  if baseDefinition.type ≠ .attribute then
                    .err (.formulaError ("Formula field \"" ++ field.name ++
                      "\" has invalid baseDefinitionId: expected AttributeDefinition, got " ++
                      defTypeText baseDefinition.type) field.id f none)
                  else
                    match lookupA state.context.attributeDefinitions baseDefinition.id with
                    | none =>
                        .err (.formulaError ("Formula field \"" ++ field.name ++
                          "\" references AttributeDefinition that is not in attributeDefinitions map")
                          field.id f none)
                    | some attrDef =>
                        match Engine.evaluateFormula efuel f re parent root state fieldValues with
                        | .err e =>
                            match e with
                            | .formulaError msg _ _ details =>
                                .err (.formulaError msg field.id f details)
                            | other => .err other
                        | .ok value =>
                            match value with
                            | .null => .err (.formulaError "Formula evaluated to null" field.id f none)
                            | .list l =>
                                .err (.formulaError ("Formula must produce a single value, got array of " ++
                                  toString l.length ++ " elements") field.id f none)
                            | v =>
                                let fieldValues' := setA fieldValues field.name v
                                let pred := fun (c : ResolvedEntry) =>
                                  c.fieldId = some field.id ∧ c.attributeEntry.isSome
                                if (re.children.find? pred).isSome then
                                  let newChildren := overwriteFirst pred (fun c =>
                                    match c.attributeEntry with
                                    | some ae =>
                                        c.withAttributeEntry
                                          (some (setAttributeValue ae attrDef.datatype (evToAttr v)))
                                    | none => c) re.children
                                  applyFields state efuel parent root rest
                                    (re.withChildren newChildren) fieldValues' counter
                                else
                                  let newId := counter
                                  let newEntry : Entry :=
                                    ⟨newId, re.entry.userId, field.baseDefinitionId,
                                      some re.entry.id, re.entry.timestamp,
                                      re.entry.subdivision, none, dateNow, dateNow⟩
                                  let base : AttributeEntry :=
                                    ⟨newId, field.id, none, none, none, none, none, none⟩
                                  let newAttr := setAttributeValue base attrDef.datatype (evToAttr v)
                                  applyFields state efuel parent root rest
                                    (re.withChildren (re.children ++
                                      [.mk newEntry none (some newAttr) (some field.id) []]))
                                    fieldValues' (counter + 1)

/-- The stable partition `input` fields before `formula` fields (the TS stable
sort with that comparator is exactly this partition). -/
def sortFields (metricFields : List Field) : List Field :=
  metricFields.filter (fun f => f.inputMode = .input) ++
    metricFields.filter (fun f => f.inputMode = .formula)

mutual

/-- applyFormulas.ts `processEntry`: metric nodes evaluate their formula
fields (with a fresh per-node `fieldValues` map), then every node recurses
into its (possibly extended) children, passing itself as the parent. -/
def processEntry (state : PipelineState) (efuel : Nat) (root : ResolvedEntry) :
    Nat → ResolvedEntry → Option ResolvedEntry → Int → PResult (ResolvedEntry × Int)
  | 0, _, _, _ => .err (.formulaError "fuel exhausted" "" "" none)
  | fuel + 1, re, parent, counter =>
      match lookupA state.context.definitions re.entry.definitionId with
      | none =>
          match processChildren state efuel root fuel re.children re counter with
          | .err e => .err e
          | .ok (cs, c') => .ok (re.withChildren cs, c')
      | some definition =>
          if definition.type ≠ .metric then
            match processChildren state efuel root fuel re.children re counter with
            | .err e => .err e
            | .ok (cs, c') => .ok (re.withChildren cs, c')
          else
            let metricFields := (lookupA state.context.fieldsByMetric definition.id).getD []
            match applyFields state efuel parent root (sortFields metricFields) re [] counter with
            | .err e => .err e
            | .ok (re', c1) =>
                match processChildren state efuel root fuel re'.children re' c1 with
                | .err e => .err e
                | .ok (cs, c2) => .ok (re'.withChildren cs, c2)
termination_by structural fuel _ _ _ => fuel

def processChildren (state : PipelineState) (efuel : Nat) (root : ResolvedEntry) :
    Nat → List ResolvedEntry → ResolvedEntry → Int → PResult (List ResolvedEntry × Int)
  | 0, _, _, _ => .err (.formulaError "fuel exhausted" "" "" none)
  | _ + 1, [], _, counter => .ok ([], counter)
  | fuel + 1, c :: rest, parentEntry, counter =>
      match processEntry state efuel root fuel c (some parentEntry) counter with
      | .err e => .err e
      | .ok (c', c1) =>
          match processChildren state efuel root fuel rest parentEntry c1 with
          | .err e => .err e
          | .ok (cs, c2) => .ok (c' :: cs, c2)
termination_by structural fuel _ _ _ => fuel

end

end ApplyF

/-- applyFormulas.ts `applyFormulas`: id counter starts at −2000 and is
post-incremented on every synthesized child; the root is its own evaluation
root and has no parent. -/
def applyFormulas (fuel efuel : Nat) (state : PipelineState) : PResult PipelineState :=
  match ApplyF.processEntry state efuel state.root fuel state.root none (-2000) with
  | .err e => .err e
  | .ok (root', _) => .ok { state with root := root' }

end MApp

namespace MApp

mutual

/-- pipeline/types.ts `MetricEntryInput`. -/
inductive MetricEntryInput where
  | mk : String → DateT → Option String → Option String → List FieldInputT →
      List MetricEntryInput → MetricEntryInput

/-- pipeline/types.ts `FieldInput`. -/
inductive FieldInputT where
  | mk : String → List AttributeValueInputT → FieldInputT

/-- pipeline/types.ts `AttributeValueInput`: the optional typed columns, the
per-value subdivision, and the optional inline metric entry. -/
inductive AttributeValueInputT where
  | mk : Option JNum → Option JNum → Option String → Option Bool → Option DateT →
      Option String → Option String → Option MetricEntryInput → AttributeValueInputT

end

def MetricEntryInput.definitionId : MetricEntryInput → String
  | .mk d _ _ _ _ _ => d

def MetricEntryInput.timestamp : MetricEntryInput → DateT
  | .mk _ t _ _ _ _ => t

def MetricEntryInput.subdivision : MetricEntryInput → Option String
  | .mk _ _ s _ _ _ => s

def MetricEntryInput.comments : MetricEntryInput → Option String
  | .mk _ _ _ c _ _ => c

def MetricEntryInput.fields : MetricEntryInput → List FieldInputT
  | .mk _ _ _ _ fs _ => fs

def MetricEntryInput.children : MetricEntryInput → List MetricEntryInput
  | .mk _ _ _ _ _ cs => cs

def FieldInputT.fieldId : FieldInputT → String
  | .mk f _ => f

def FieldInputT.values : FieldInputT → List AttributeValueInputT
  | .mk _ vs => vs

def AttributeValueInputT.valueInt : AttributeValueInputT → Option JNum
  | .mk v _ _ _ _ _ _ _ => v

def AttributeValueInputT.valueFloat : AttributeValueInputT → Option JNum
  | .mk _ v _ _ _ _ _ _ => v

def AttributeValueInputT.valueString : AttributeValueInputT → Option String
  | .mk _ _ v _ _ _ _ _ => v

def AttributeValueInputT.valueBool : AttributeValueInputT → Option Bool
  | .mk _ _ _ v _ _ _ _ => v

def AttributeValueInputT.valueTimestamp : AttributeValueInputT → Option DateT
  | .mk _ _ _ _ v _ _ _ => v

def AttributeValueInputT.valueHierarchy : AttributeValueInputT → Option String
  | .mk _ _ _ _ _ v _ _ => v

def AttributeValueInputT.subdivision : AttributeValueInputT → Option String
  | .mk _ _ _ _ _ _ s _ => s

def AttributeValueInputT.metricEntry : AttributeValueInputT → Option MetricEntryInput
  | .mk _ _ _ _ _ _ _ m => m

/-- pipeline/pipeline.ts `PipelineConfig`. -/
structure PipelineConfig where
  definitions : List Definition
  metricDefinitions : List MetricDefinition
  attributeDefinitions : List AttributeDefinition
  fields : List Field
  existingEntries : ExistingEntriesResolver

/-- pipeline/pipeline.ts `buildContext`: index the configuration lists into
maps (`fieldsByMetric` accumulates per metric in declaration order). -/
def buildContext (config : PipelineConfig) : PipelineContext where
  definitions := config.definitions.foldl (fun m d => setA m d.id d) []
  metricDefinitions := config.metricDefinitions.foldl (fun m d => setA m d.definitionId d) []
  attributeDefinitions :=
    config.attributeDefinitions.foldl (fun m d => setA m d.definitionId d) []
  fields := config.fields.foldl (fun m f => setA m f.id f) []
  fieldsByMetric := config.fields.foldl
    (fun m f => setA m f.metricDefinitionId ((lookupA m f.metricDefinitionId).getD [] ++ [f])) []
  existingEntries := config.existingEntries

/-- pipeline/pipeline.ts `buildDivision`: walk the parent-definition chain,
prepending each code (outermost first); fuel guards the (acyclic in practice)
chain walk. -/
def buildDivision : Nat → Option String → List (String × Definition) → List String →
    List String
  | 0, _, _, acc => acc
  | _ + 1, none, _, acc => acc
  | fuel + 1, some currentId, defs, acc =>
      match lookupA defs currentId with
      | none => acc
      | some d => buildDivision fuel d.parentDefinitionId defs (d.code :: acc)

/-- The placeholder/typed-column assignment for one `AttributeValueInput` when
the field's base resolves to an attribute definition (the first present column
wins, in the fixed order int, float, string, bool, timestamp, hierarchy; no
column present leaves the attribute empty). -/
def builderAttrEntry (childId : Int) (fieldId : String) (vi : AttributeValueInputT) :
    AttributeEntry :=
  let base : AttributeEntry := ⟨childId, fieldId, none, none, none, none, none, none⟩
  match vi.valueInt with
  | some v => setAttributeValue base .int (.num v)
  | none =>
  match vi.valueFloat with
  | some v => setAttributeValue base .float (.num v)
  | none =>
  match vi.valueString with
  | some v => setAttributeValue base .string (.str v)
  | none =>
  match vi.valueBool with
  | some v => setAttributeValue base .bool (.bool v)
  | none =>
  match vi.valueTimestamp with
  | some v => setAttributeValue base .timestamp (.date v)
  | none =>
  match vi.valueHierarchy with
  | some v => setAttributeValue base .hierarchyString (.str v)
  | none => base

/-- The identifier-placeholder assignment when the field's base is a metric
and no inline entry is given: `value_int` or `value_string` is set directly
(neither present leaves every column null). -/
def builderPlaceholderEntry (childId : Int) (fieldId : String) (vi : AttributeValueInputT) :
    AttributeEntry :=
  let base : AttributeEntry := ⟨childId, fieldId, none, none, none, none, none, none⟩
  match vi.valueInt with
  | some v => { base with valueInt := some (.num v) }
  | none =>
  match vi.valueString with
  | some v => { base with valueString := some (.str v) }
  | none => base

mutual

/-- pipeline/pipeline.ts `buildResolvedEntry`: allocate the entry id, build
attribute / inline-metric / placeholder children for each field input value
(each value allocates an id before branching, exactly like the source's
post-increment at the top of the loop), then attach legacy `children` inputs. -/
def buildResolvedEntry (context : PipelineContext) (userId : String) :
    Nat → MetricEntryInput → Int → Option Int → PResult (ResolvedEntry × Int)
  | 0, _, _, _ => .err (.formulaError "fuel exhausted" "" "" none)
  | fuel + 1, input, counter, parentEntryId =>
      match lookupA context.definitions input.definitionId with
      | none =>
          .err (.formulaError ("Definition not found: " ++ input.definitionId) "" "" none)
      | some definition =>
          let entryId := counter
          let entry : Entry :=
            ⟨entryId, userId, input.definitionId, parentEntryId,
              normalizeToStartOfDay input.timestamp, input.subdivision,
              input.comments, dateNow, dateNow⟩
          let metricEntry : Option MetricEntry :=
            if definition.type = .metric then some ⟨entryId⟩ else none
          match buildFieldInputs context userId fuel input input.fields (counter + 1) entryId with
          | .err e => .err e
          | .ok (children, c1) =>
              match buildKids context userId fuel input.children c1 entryId with
              | .err e => .err e
              | .ok (extra, c2) =>
                  .ok (.mk entry metricEntry none none (children ++ extra), c2)
termination_by structural fuel _ _ _ => fuel

def buildFieldInputs (context : PipelineContext) (userId : String) :
    Nat → MetricEntryInput → List FieldInputT → Int → Int →
      PResult (List ResolvedEntry × Int)
  | 0, _, _, _, _ => .err (.formulaError "fuel exhausted" "" "" none)
  | _ + 1, _, [], counter, _ => .ok ([], counter)
  | fuel + 1, input, fi :: rest, counter, entryId =>
      match lookupA context.fields fi.fieldId with
      | none =>
          .err (.formulaError ("Field not found: " ++ fi.fieldId) fi.fieldId "" none)
      | some field =>
          match lookupA context.definitions field.baseDefinitionId with
          | none => buildFieldInputs context userId fuel input rest counter entryId
          | some baseDef =>
              match buildValues context userId fuel input field baseDef fi.values counter
                  entryId with
              | .err e => .err e
              | .ok (cs, c1) =>
                  match buildFieldInputs context userId fuel input rest c1 entryId with
                  | .err e => .err e
                  | .ok (cs', c2) => .ok (cs ++ cs', c2)
termination_by structural fuel _ _ _ _ => fuel

def buildValues (context : PipelineContext) (userId : String) :
    Nat → MetricEntryInput → Field → Definition → List AttributeValueInputT → Int → Int →
      PResult (List ResolvedEntry × Int)
  | 0, _, _, _, _, _, _ => .err (.formulaError "fuel exhausted" "" "" none)
  | _ + 1, _, _, _, [], counter, _ => .ok ([], counter)
  | fuel + 1, input, field, baseDef, vi :: rest, counter, entryId =>
      let childId := counter
      let counter' := counter + 1
      let childSubdivision :=
        match vi.subdivision with
        | some s => some s
        | none => input.subdivision
      let childEntry : Entry :=
        ⟨childId, userId, field.baseDefinitionId, some entryId,
          normalizeToStartOfDay input.timestamp, childSubdivision, none, dateNow, dateNow⟩
      let attrDef := lookupA context.attributeDefinitions baseDef.id
      let isMetricReference := baseDef.type = .metric
      if attrDef.isSome then
        match buildValues context userId fuel input field baseDef rest counter' entryId with
        | .err e => .err e
        | .ok (cs, c2) =>
            .ok (.mk childEntry none (some (builderAttrEntry childId field.id vi))
              (some field.id) [] :: cs, c2)
      else if isMetricReference then
        match vi.metricEntry with
        | some inline =>
            match buildResolvedEntry context userId fuel inline counter' (some entryId) with
            | .err e => .err e
            | .ok (sub, c2) =>
                match buildValues context userId fuel input field baseDef rest c2 entryId with
                | .err e => .err e
                | .ok (cs, c3) => .ok (sub.withFieldId (some field.id) :: cs, c3)
        | none =>
            match buildValues context userId fuel input field baseDef rest counter' entryId with
            | .err e => .err e
            | .ok (cs, c2) =>
                .ok (.mk childEntry none (some (builderPlaceholderEntry childId field.id vi))
                  (some field.id) [] :: cs, c2)
      else
        match buildValues context userId fuel input field baseDef rest counter' entryId with
        | .err e => .err e
        | .ok (cs, c2) => .ok (cs, c2)
termination_by structural fuel _ _ _ _ _ _ => fuel

def buildKids (context : PipelineContext) (userId : String) :
    Nat → List MetricEntryInput → Int → Int → PResult (List ResolvedEntry × Int)
  | 0, _, _, _ => .err (.formulaError "fuel exhausted" "" "" none)
  | _ + 1, [], counter, _ => .ok ([], counter)
  | fuel + 1, k :: rest, counter, entryId =>
      match buildResolvedEntry context userId fuel k counter (some entryId) with
      | .err e => .err e
      | .ok (sub, c1) =>
          match buildKids context userId fuel rest c1 entryId with
          | .err e => .err e
          | .ok (cs, c2) => .ok (sub :: cs, c2)
termination_by structural fuel _ _ _ => fuel

end

/-- pipeline/pipeline.ts `buildInitialState`: id counter starts at 1; the
division vector comes from the root definition's parent chain and the
subdivision vector from splitting the input's subdivision on `/`. -/
def buildInitialState (fuel : Nat) (input : MetricEntryInput) (config : PipelineConfig)
    (userId : String) : PResult PipelineState :=
  let context := buildContext config
  match buildResolvedEntry context userId fuel input 1 none with
  | .err e => .err e
  | .ok (root, _) =>
      let division := buildDivision fuel (some input.definitionId) context.definitions []
      let subdivision :=
        match input.subdivision with
        | some s => if s = "" then [] else splitOnChar '/' s
        | none => []
      .ok ⟨root, context, division, subdivision, division ++ subdivision⟩

end MApp

namespace MApp

/-! Concrete fixtures used by the claim theorems. -/

/-- Context for the cross-field-reference run: metric `M` with two formula
fields, `f1 = "2"` evaluated first and `f2 = "f1 + 1"` evaluated second. -/
def c2field1 : Field := ⟨"f1", "M", "f1", "A", .formula, some "2", 0, none⟩

def c2field2 : Field := ⟨"f2", "M", "f2", "A", .formula, some "f1 + 1", 0, none⟩

def c2context : PipelineContext :=
  ⟨[("M", ⟨"M", .metric, "M", "M", none⟩), ("A", ⟨"A", .attribute, "A", "A", none⟩)],
    [("M", ⟨"M", none⟩)], [("A", ⟨"A", .int⟩)],
    [("f1", c2field1), ("f2", c2field2)], [("M", [c2field1, c2field2])], fun _ _ => []⟩

def c2root : ResolvedEntry :=
  .mk ⟨1, "u", "M", none, ⟨0, 0⟩, none, none, ⟨0, 0⟩, ⟨0, 0⟩⟩ (some ⟨1⟩) none none []

def c2state : PipelineState := ⟨c2root, c2context, [], [], []⟩

/-- Context for the id-allocation run: metric `M` with two hierarchy-formula
fields `g1 = subdivision[0]` and `g2 = subdivision[1]`. -/
def c5field1 : Field := ⟨"g1", "M", "g1", "A", .formula, some "subdivision[0]", 0, none⟩

def c5field2 : Field := ⟨"g2", "M", "g2", "A", .formula, some "subdivision[1]", 0, none⟩

def c5context : PipelineContext :=
  ⟨[("M", ⟨"M", .metric, "M", "M", none⟩), ("A", ⟨"A", .attribute, "A", "A", none⟩)],
    [("M", ⟨"M", none⟩)], [("A", ⟨"A", .string⟩)],
    [("g1", c5field1), ("g2", c5field2)], [("M", [c5field1, c5field2])], fun _ _ => []⟩

def c5root : ResolvedEntry :=
  .mk ⟨1, "u", "M", none, ⟨0, 0⟩, some "a/b", none, ⟨0, 0⟩, ⟨0, 0⟩⟩ (some ⟨1⟩) none none []

def c5state : PipelineState := ⟨c5root, c5context, [], ["a", "b"], ["a", "b"]⟩

/-- Context for the instance-resolution runs: root metric `M` with field `bk`
whose base is metric `B`, `B` having a primary identifier field. -/
def c7field : Field := ⟨"bk", "M", "bk", "B", .input, none, 0, none⟩

def c7context (oracle : ExistingEntriesResolver) : PipelineContext :=
  ⟨[("M", ⟨"M", .metric, "M", "M", none⟩), ("B", ⟨"B", .metric, "B", "B", none⟩)],
    [("M", ⟨"M", none⟩), ("B", ⟨"B", some "pid"⟩)], [],
    [("bk", c7field)], [("M", [c7field])], oracle⟩

/-- A placeholder child for field `bk` with every value column null (built by
the tree builder when the value input carries no scalar identifier). -/
def c7nullChild : ResolvedEntry :=
  .mk ⟨2, "u", "B", some 1, ⟨0, 0⟩, none, none, ⟨0, 0⟩, ⟨0, 0⟩⟩ none
    (some ⟨2, "bk", none, none, none, none, none, none⟩) (some "bk") []

def c7nullState : PipelineState :=
  ⟨.mk ⟨1, "u", "M", none, ⟨0, 0⟩, none, none, ⟨0, 0⟩, ⟨0, 0⟩⟩ (some ⟨1⟩) none none
    [c7nullChild], c7context (fun _ _ => []), [], [], []⟩

/-- A placeholder child for field `bk` carrying the string identifier `s`. -/
def c7placeholder (s : String) : ResolvedEntry :=
  .mk ⟨2, "u", "B", some 1, ⟨0, 0⟩, none, none, ⟨0, 0⟩, ⟨0, 0⟩⟩ none
    (some ⟨2, "bk", none, none, some (.str s), none, none, none⟩) (some "bk") []

def c7state (oracle : ExistingEntriesResolver) (s : String) : PipelineState :=
  ⟨.mk ⟨1, "u", "M", none, ⟨0, 0⟩, none, none, ⟨0, 0⟩, ⟨0, 0⟩⟩ (some ⟨1⟩) none none
    [c7placeholder s], c7context oracle, [], [], []⟩

/-- A metric-`B` instance tree as the oracle would return it: quantified
entry fields, optional metric marker, no children. -/
def c7instance (i : Int) (uid : String) (pid : Option Int) (ts : DateT)
    (sub com : Option String) (ca ua : DateT) (me : Option MetricEntry) : ResolvedEntry :=
  .mk ⟨i, uid, "B", pid, ts, sub, com, ca, ua⟩ me none none []

/-- The state expected after resolving the `bk` placeholder: the child keeps
the field slot and takes entry, metric marker and children from the instance. -/
def c7resolvedState (found : List ResolvedEntry) (i : Int) (uid : String)
    (pid : Option Int) (ts : DateT) (sub com : Option String) (ca ua : DateT)
    (me : Option MetricEntry) : PipelineState :=
  ⟨.mk ⟨1, "u", "M", none, ⟨0, 0⟩, none, none, ⟨0, 0⟩, ⟨0, 0⟩⟩ (some ⟨1⟩) none none
    [.mk ⟨i, uid, "B", pid, ts, sub, com, ca, ua⟩ me none (some "bk") []],
    c7context (fun _ _ => found), [], [], []⟩

def c6field (f : String) : Field := ⟨"f", "M", "f", "A", .formula, some f, 0, none⟩

def c6context (f : String) : PipelineContext :=
  ⟨[("M", ⟨"M", .metric, "M", "M", none⟩), ("A", ⟨"A", .attribute, "A", "A", none⟩)],
    [("M", ⟨"M", none⟩)], [("A", ⟨"A", .string⟩)],
    [("f", c6field f)], [("M", [c6field f])], fun _ _ => []⟩

def c6root : ResolvedEntry :=
  .mk ⟨1, "u", "M", none, ⟨0, 0⟩, none, none, ⟨0, 0⟩, ⟨0, 0⟩⟩ (some ⟨1⟩) none none []

def c6state (sv dv pv : List String) (f : String) : PipelineState :=
  ⟨c6root, c6context f, dv, sv, pv⟩

def c6child (v : String) : ResolvedEntry :=
  .mk ⟨-1000, "u", "A", some 1, ⟨0, 0⟩, none, none, ⟨0, 0⟩, ⟨0, 0⟩⟩ none
    (some ⟨-1000, "f", none, none, some (.str v), none, none, none⟩) (some "f") []

def c6done (sv dv pv : List String) (f v : String) : PipelineState :=
  ⟨.mk ⟨1, "u", "M", none, ⟨0, 0⟩, none, none, ⟨0, 0⟩, ⟨0, 0⟩⟩ (some ⟨1⟩) none none
    [c6child v], c6context f, dv, sv, pv⟩

def c6owChild : ResolvedEntry :=
  .mk ⟨7, "u", "A", some 1, ⟨0, 0⟩, none, none, ⟨0, 0⟩, ⟨0, 0⟩⟩ none
    (some ⟨7, "f", some (.str "old"), none, none, none, none, none⟩) (some "f") []

def c6owRoot : ResolvedEntry :=
  .mk ⟨1, "u", "M", none, ⟨0, 0⟩, none, none, ⟨0, 0⟩, ⟨0, 0⟩⟩ (some ⟨1⟩) none none [c6owChild]

def c6owState (sv dv pv : List String) (f : String) : PipelineState :=
  ⟨c6owRoot, c6context f, dv, sv, pv⟩

def c6owDone (sv dv pv : List String) (f v : String) : PipelineState :=
  ⟨.mk ⟨1, "u", "M", none, ⟨0, 0⟩, none, none, ⟨0, 0⟩, ⟨0, 0⟩⟩ (some ⟨1⟩) none none
    [.mk ⟨7, "u", "A", some 1, ⟨0, 0⟩, none, none, ⟨0, 0⟩, ⟨0, 0⟩⟩ none
      (some ⟨7, "f", none, none, some (.str v), none, none, none⟩) (some "f") []],
    c6context f, dv, sv, pv⟩

mutual

def treeIds : ResolvedEntry → List Int
  | .mk e _ _ _ cs => e.id :: treeIdsList cs

def treeIdsList : List ResolvedEntry → List Int
  | [] => []
  | c :: rest => treeIds c ++ treeIdsList rest

end

def countI (i : Int) : List Int → Nat
  | [] => 0
  | x :: rest => (if x = i then 1 else 0) + countI i rest

def indR (c c' i : Int) : Nat := if c ≤ i ∧ i < c' then 1 else 0

def c5wCtx : PipelineContext :=
  ⟨[("M", ⟨"M", .metric, "M", "M", none⟩)], [("M", ⟨"M", none⟩)], [], [], [],
    fun _ _ => []⟩

def c5wRoot : ResolvedEntry :=
  .mk ⟨1, "u", "M", none, ⟨0, 0⟩, none, none, ⟨0, 0⟩, ⟨0, 0⟩⟩ (some ⟨1⟩) none none []

def c5wState : PipelineState := ⟨c5wRoot, c5wCtx, [], [], []⟩

end MApp

/-! ## Claim theorems -/

/-- C1: the specification's timing line `1400-1500 t30m/thk15m5n10` (under a
timing-capable header) is claimed to parse into one parent entry whose nested
TIM input has duration 60 and four `time_type` values with subdivisions
`t`, `m/thk`, `m`, `n` and values 30, 15, 5, 10.  The code strips the slashes
and scans only single-letter bases, so the multi-letter subdivision `m/thk`
makes `parseTimingTokens` fail with `Invalid token syntax`: the time range
alone would give duration 60, but the timing line as a whole is rejected and
nothing is emitted — contradicting the parser's own doc-comment examples
(`t12m/thk5m3`) and docs/formulas.md §11.1. -/
theorem C1_timing_line_mthk_rejected :
    MApp.Timing.parseTimeRange "1400-1500" 2 = .ok ⟨840, 900, 60⟩ ∧
    MApp.Timing.parseTimingTokens "t30m/thk15m5n10" 2 =
      .error ⟨"Invalid token syntax", some 2, some "t30m/thk15m5n10"⟩ ∧
    MApp.Timing.parseTimingLine "1400-1500 t30m/thk15m5n10" 2 =
      .error ⟨"Invalid token syntax", some 2, some "t30m/thk15m5n10"⟩ := by
  refine ⟨by decide, by decide, by decide⟩

/-- C2: the claim says a formula referencing an earlier formula field of the
same node by name receives the stored result through the `field_values`
scratch map.  The engine's `parsePrimary` never consults that map: whatever
`fieldValues` holds — including `f1 ↦ 2` — the reference `f1` evaluates to
null, so `f1 + 1` evaluates to null, and on the two-field metric `M`
(`f1 = "2"`, then `f2 = "f1 + 1"`) `applyFormulas` aborts with
`Formula evaluated to null` instead of storing 3. -/
theorem C2_fieldValues_never_consulted :
    (∀ fv : List (String × MApp.Engine.EV),
      MApp.Engine.evaluateFormula 50 "f1 + 1" MApp.probeEntry none MApp.probeEntry
        MApp.probeState fv = .ok .null) ∧
    MApp.applyFormulas 5 50 MApp.c2state =
      .err (.formulaError "Formula evaluated to null" "f2" "f1 + 1" none) := by
  exact ⟨fun _ => rfl, rfl⟩

/-- C3: the claim says `a // b` tokenizes as the single integer-division
operator and evaluates to the floor of the quotient.  The tokenizer's
single-character operator branch consumes `/` before the two-character `//`
check is reached, so `7 // 2` becomes the four tokens `7`, `/`, `/`, `2`; the
second `/` falls through `parsePrimary` to null, `7 / null` propagates null,
and the whole formula evaluates to null instead of `3`. -/
theorem C3_floordiv_tokenizer_dead_branch :
    MApp.Engine.tokenize "7 // 2" = ["7", "/", "/", "2"] ∧
    MApp.Engine.evaluateFormula 50 "7 // 2" MApp.probeEntry none MApp.probeEntry
      MApp.probeState [] = .ok .null := by
  exact ⟨by decide, rfl⟩

/-- C9: the claim says a dataset line with a trailing `FROM PERIOD` clause
(`tims = TIM FROM TODAY`) parses with the clause ignored.  The
`^(\w+)\s*=\s*(\w+)$` regex of `parseDatasetDeclaration` rejects any trailing
clause, so the widget fails to parse — although the repository's own widget
sandbox and the `runWidget` doc comment use exactly this syntax. -/
theorem C9_from_period_rejected :
    MApp.WidgetDsl.parseDatasetDeclaration ["tims = TIM FROM TODAY"] 0 =
      .error ⟨"Invalid dataset declaration. Expected: alias = DEF", some 1,
        some "Got: tims = TIM FROM TODAY"⟩ ∧
    MApp.WidgetDsl.parseWidget
        "WIDGET \"Daily\"\n\ntims = TIM FROM TODAY\n\n\"a\": int = 1\nEND" =
      .error ⟨"Invalid dataset declaration. Expected: alias = DEF", some 3,
        some "Got: tims = TIM FROM TODAY"⟩ := by
  exact ⟨by decide, by decide⟩

theorem findIdxIn_contains : ∀ (l : List String) (i : Nat),
    List.findIdx? (fun t => t = "in") l = some i → l.contains "in" = true := by
  intro l
  induction l with
  | nil => intro i h; simp [List.findIdx?] at h
  | cons x xs ih =>
    intro i h
    by_cases hx : x = "in"
    · simp [hx]
    · rw [List.findIdx?_cons] at h
      simp [hx] at h
      rcases h with ⟨j, hj, _⟩
      have := ih j hj
      simp [List.contains_cons]
      right
      simpa using this

theorem whereFilter_nonmatching (es : List MApp.ResolvedEntry) (cond : List String)
    (h : cond.head? ≠ some "subdivision" ∨
      List.findIdx? (fun t => t = "in") cond = none) :
    MApp.Engine.whereFilter es cond = [] := by
  unfold MApp.Engine.whereFilter
  cases hidx : List.findIdx? (fun t => t = "in") cond with
  | none => rfl
  | some i =>
    rcases h with h | h
    · simp [h]
    · rw [hidx] at h; cases h

/-- C10: in entry-formula evaluation, `where(cond)` on a non-empty entry list
whose captured condition is not of the exact `subdivision in "prefix"` shape
(first token not `subdivision`, or no `in` token) succeeds with the empty
list; the only `FORMULA_ERROR` raised by the where-clause handler is for a
receiver that is not a non-empty entry list. -/
theorem C10_where_nonmatching_condition_empty :
    ∀ (v : MApp.Engine.EV) (toks : List String) (pos : Nat) (cond : List String) (n : Nat),
      (MApp.Engine.isEntryArrEV v = false →
        MApp.Engine.parseWhere v toks pos =
          .err (.formulaError "where() can only be applied to entry lists" "" "" none)) ∧
      (MApp.Engine.isEntryArrEV v = true →
        MApp.Engine.captureCond (toks.drop pos) 1 = (cond, n) →
        (cond.head? ≠ some "subdivision" ∨
          List.findIdx? (fun t => t = "in") cond = none) →
        MApp.Engine.parseWhere v toks pos = .ok (.list [], pos + n)) := by
  intro v toks pos cond n
  constructor
  · intro h
    unfold MApp.Engine.parseWhere
    simp [h]
  · intro hv hcap hshape
    unfold MApp.Engine.parseWhere
    rw [hcap]
    simp [hv, whereFilter_nonmatching _ _ hshape]

/-- C10 witness: `xs.where(x == 1)` — condition tokens `x == 1`, first token
not `subdivision` — returns the empty list successfully. -/
theorem C10_witness :
    MApp.Engine.parseWhere (.list [.entry MApp.probeEntry])
      [".", "where", "(", "x", "==", "1", ")"] 3 = .ok (.list [], 7) := by
  exact (C10_where_nonmatching_condition_empty (.list [.entry MApp.probeEntry])
    [".", "where", "(", "x", "==", "1", ")"] 3 ["x", "==", "1"] 4).2 (by decide) (by decide)
    (Or.inl (by decide))

/-- C8: applying any of the five aggregations to the empty list raises
`FORMULA_ERROR` (`Cannot apply fn to empty list`) in entry-formula
evaluation, while the widget evaluator returns 0 for `sum`, `avg` and `count`
over an empty collection. -/
theorem C8_empty_aggregation_split :
    ∀ fn : String,
      MApp.Engine.applyAggregation fn (.list []) =
        .err (.formulaError ("Cannot apply " ++ fn ++ " to empty list") "" "" none) ∧
      ((fn = "sum" ∨ fn = "avg" ∨ fn = "count") →
        MApp.WidgetDsl.applyAggregation fn (.arr []) = .ok 0) := by
  intro fn
  constructor
  · rfl
  · intro h
    rcases h with h | h | h <;> subst h <;> decide

/-- C8 witness: the split at `sum`. -/
theorem C8_witness :
    MApp.Engine.applyAggregation "sum" (.list []) =
      .err (.formulaError "Cannot apply sum to empty list" "" "" none) ∧
    MApp.WidgetDsl.applyAggregation "sum" (.arr []) = .ok 0 := by
  exact ⟨(C8_empty_aggregation_split "sum").1,
    (C8_empty_aggregation_split "sum").2 (Or.inl rfl)⟩

namespace MApp

/-- Projection used to observe the provisional ids of the root's children. -/
def resultRootIds : PResult PipelineState → List Int
  | .ok st => st.root.children.map (fun c => c.entry.id)
  | .err _ => []

end MApp

/-- C5 counterexample: on the metric `M` with two hierarchy-formula fields,
the hierarchy populator synthesizes children with ids −1000 then −999 — the
counter is post-incremented (`idCounter.value++`) and therefore ascends,
refuting the claim that populator ids start at −1000 *and descend* (the
formula applier ascends from −2000 the same way). -/
theorem C5_counterexample_populator_ids_ascend :
    MApp.resultRootIds (MApp.populateFromSubdivision 5 MApp.c5state) = [-1000, -999] ∧
    (-1000 : Int) < -999 := by
  exact ⟨by decide, by decide⟩

/-- C7 counterexample: a placeholder child of the metric-base field `bk`
whose attribute entry has every value column null is skipped by
`convertToInstances` (`getAttributeValue` is null, so the resolver
`continue`s): the run succeeds and the child is still an attribute
placeholder, not an inline metric subtree — refuting the claim's universal
statement. -/
theorem C7_counterexample_null_placeholder_survives :
    MApp.convertToInstances 5 MApp.c7nullState = .ok MApp.c7nullState ∧
    MApp.c7nullState.root.children = [MApp.c7nullChild] ∧
    MApp.c7nullChild.metricEntry = none ∧
    MApp.c7nullChild.attributeEntry.isSome = true := by
  exact ⟨rfl, rfl, rfl, rfl⟩

/-- C4 counterexample: a widget with two computed fields where the first
(`"a": int = 1 / 0`) fails by division by zero and the second
(`"b": int = 2`) would succeed: the run returns only the first field's error
and no values at all — the sibling's value is not returned, refuting
per-field isolation. -/
theorem C4_counterexample_run_aborts_wholesale :
    MApp.WidgetDsl.runWidgetWithData 100
      "WIDGET \"W\"\nd = TIM\n\"a\": int = 1 / 0\n\"b\": int = 2\nEND" [] =
      .err "Evaluation error in field \"a\": Division by zero" := by
  decide

/-- C4 (amended): the computed-field loop of `runWidgetWithData`/`runWidget`
aborts the whole widget run at the first failing field, reporting that
field's error and discarding every sibling value (isolation exists only
between widgets in the dashboard, not between fields of one widget). -/
theorem C4_first_failing_field_aborts_run :
    ∀ (fuel : Nat) (ctx : MApp.WidgetDsl.WidgetEvaluationContext)
      (pre post : List MApp.WidgetDsl.ComputedField)
      (badF : MApp.WidgetDsl.ComputedField) (e : String),
      (∀ f ∈ pre, ∃ v, MApp.WidgetDsl.evaluateWidgetExpression fuel f.expression ctx = .ok v) →
      MApp.WidgetDsl.evaluateWidgetExpression fuel badF.expression ctx = .error e →
      MApp.WidgetDsl.evalFields fuel ctx (pre ++ badF :: post) =
        .error ("Evaluation error in field \"" ++ badF.label ++ "\": " ++ e) := by
  intro fuel ctx pre post badF e hpre hbad
  induction pre with
  | nil =>
    unfold MApp.WidgetDsl.evalFields
    simp [hbad]
  | cons f fs ih =>
    have hf := hpre f (by simp)
    obtain ⟨v, hv⟩ := hf
    have hrest := ih (fun g hg => hpre g (by simp [hg]))
    show MApp.WidgetDsl.evalFields fuel ctx (f :: (fs ++ badF :: post)) = _
    unfold MApp.WidgetDsl.evalFields
    rw [hv, hrest]

/-- C4 witness: with good fields around the failing one, the run returns
exactly the failing field's error. -/
theorem C4_witness :
    MApp.WidgetDsl.evalFields 50 ⟨[("d", [])], "TIM"⟩
      [⟨"a", .int, "1 + 2"⟩, ⟨"b", .int, "1 / 0"⟩, ⟨"c", .int, "3"⟩] =
      .error "Evaluation error in field \"b\": Division by zero" := by
  exact C4_first_failing_field_aborts_run 50 ⟨[("d", [])], "TIM"⟩
    [⟨"a", .int, "1 + 2"⟩] [⟨"c", .int, "3"⟩] ⟨"b", .int, "1 / 0"⟩ "Division by zero"
    (by
      intro f hf
      simp at hf
      subst hf
      exact ⟨3, rfl⟩)
    rfl

/-- An ambiguous oracle answer (two or more instances) makes
`convReplaceChild` fail with the match count in the message. -/
theorem c7_replaceChild_ambig (s : String) (a b : MApp.ResolvedEntry)
    (rest : List MApp.ResolvedEntry) :
    MApp.Convert.convReplaceChild (MApp.c7state (fun _ _ => a :: b :: rest) s)
      (MApp.c7placeholder s) =
    .err (.instanceResolutionError
      ("Ambiguous reference: " ++ toString (a :: b :: rest).length ++
        " instances found for metric \"" ++ "B" ++ "\" with identifier \"" ++ s ++ "\"")
      "bk" "B" (.str s) (a :: b :: rest).length) := by
  have hp : (a :: b :: rest).length > 1 := by
    show 1 < rest.length + 2
    omega
  show (if (a :: b :: rest).length > 1 then
      (MApp.PResult.err (.instanceResolutionError
        ("Ambiguous reference: " ++ toString (a :: b :: rest).length ++
          " instances found for metric \"" ++ "B" ++ "\" with identifier \"" ++ s ++ "\"")
        "bk" "B" (.str s) (a :: b :: rest).length) : MApp.PResult MApp.ResolvedEntry)
    else .ok (.mk a.entry a.metricEntry none (some "bk") a.children)) = _
  exact if_pos hp

/-- The child-replacement loop propagates the ambiguity error. -/
theorem c7_childLoop_ambig (s : String) (a b : MApp.ResolvedEntry)
    (rest : List MApp.ResolvedEntry) :
    MApp.Convert.convChildLoop (MApp.c7state (fun _ _ => a :: b :: rest) s)
      [MApp.c7placeholder s] =
    .err (.instanceResolutionError
      ("Ambiguous reference: " ++ toString (a :: b :: rest).length ++
        " instances found for metric \"" ++ "B" ++ "\" with identifier \"" ++ s ++ "\"")
      "bk" "B" (.str s) (a :: b :: rest).length) := by
  unfold MApp.Convert.convChildLoop
  rw [c7_replaceChild_ambig]

/-- `processEntry` on the root propagates the ambiguity error. -/
theorem c7_processEntry_ambig (s : String) (a b : MApp.ResolvedEntry)
    (rest : List MApp.ResolvedEntry) :
    MApp.Convert.processEntry (MApp.c7state (fun _ _ => a :: b :: rest) s) 5
      (MApp.c7state (fun _ _ => a :: b :: rest) s).root =
    .err (.instanceResolutionError
      ("Ambiguous reference: " ++ toString (a :: b :: rest).length ++
        " instances found for metric \"" ++ "B" ++ "\" with identifier \"" ++ s ++ "\"")
      "bk" "B" (.str s) (a :: b :: rest).length) := by
  show (match MApp.Convert.convChildLoop (MApp.c7state (fun _ _ => a :: b :: rest) s)
      [MApp.c7placeholder s] with
    | .err e => (.err e : MApp.PResult MApp.ResolvedEntry)
    | .ok cs =>
        match MApp.Convert.processChildren (MApp.c7state (fun _ _ => a :: b :: rest) s) 4 cs with
        | .err e => .err e
        | .ok cs' => .ok ((MApp.c7state (fun _ _ => a :: b :: rest) s).root.withChildren cs')) = _
  rw [c7_childLoop_ambig]

/-- C7 (amended): for a placeholder child of a metric-base field with a
primary identifier field *whose attribute entry carries a non-null value*,
`convertToInstances` resolves the identifier through the oracle (here
abstracted by the list it returns): exactly one match replaces the child in
place — keeping the field slot and taking entry, metric marker and children
from the resolved instance — while zero matches or more than one match fail
with `INSTANCE_RESOLUTION_ERROR` carrying that match count.  (Placeholders
with no populated value column are skipped, per the counterexample.) -/
theorem C7_amended_nonnull_placeholder_resolution :
    ∀ (found : List MApp.ResolvedEntry) (s : String) (i : Int) (uid : String)
      (pid : Option Int) (ts : MApp.DateT) (sub com : Option String)
      (ca ua : MApp.DateT) (me : Option MApp.MetricEntry),
      (found = [] →
        MApp.convertToInstances 5 (MApp.c7state (fun _ _ => found) s) =
          .err (.instanceResolutionError
            ("No matching instance found for metric \"B\" with identifier \"" ++ s ++ "\"")
            "bk" "B" (.str s) 0)) ∧
      (found = [MApp.c7instance i uid pid ts sub com ca ua me] →
        MApp.convertToInstances 5 (MApp.c7state (fun _ _ => found) s) =
          .ok (MApp.c7resolvedState found i uid pid ts sub com ca ua me)) ∧
      (2 ≤ found.length →
        MApp.convertToInstances 5 (MApp.c7state (fun _ _ => found) s) =
          .err (.instanceResolutionError
            ("Ambiguous reference: " ++ toString found.length ++
              " instances found for metric \"" ++ "B" ++ "\" with identifier \"" ++ s ++ "\"")
            "bk" "B" (.str s) found.length)) := by
  intro found s i uid pid ts sub com ca ua me
  refine ⟨?_, ?_, ?_⟩
  · intro h
    subst h
    rfl
  · intro h
    subst h
    rfl
  · intro hlen
    match found, hlen with
    | a :: b :: rest, _ =>
      unfold MApp.convertToInstances
      rw [c7_processEntry_ambig]

/-- C7 witness: a one-element oracle answer replaces the placeholder in
place. -/
theorem C7_witness :
    MApp.convertToInstances 5
      (MApp.c7state (fun _ _ => [MApp.c7instance 77 "u" none ⟨0, 0⟩ none none ⟨0, 0⟩ ⟨0, 0⟩
        (some ⟨77⟩)]) "Dune") =
      .ok (MApp.c7resolvedState
        [MApp.c7instance 77 "u" none ⟨0, 0⟩ none none ⟨0, 0⟩ ⟨0, 0⟩ (some ⟨77⟩)]
        77 "u" none ⟨0, 0⟩ none none ⟨0, 0⟩ ⟨0, 0⟩ (some ⟨77⟩)) := by
  exact (C7_amended_nonnull_placeholder_resolution
    [MApp.c7instance 77 "u" none ⟨0, 0⟩ none none ⟨0, 0⟩ ⟨0, 0⟩ (some ⟨77⟩)]
    "Dune" 77 "u" none ⟨0, 0⟩ none none ⟨0, 0⟩ ⟨0, 0⟩ (some ⟨77⟩)).2.1 rfl

theorem c6_takeWhile_digits (ds : List Char) (h : ∀ c ∈ ds, c.isDigit = true) :
    (ds ++ [']']).takeWhile Char.isDigit = ds := by
  induction ds with
  | nil => rfl
  | cons a t ih =>
    show ((a :: (t ++ [']'])).takeWhile Char.isDigit) = a :: t
    rw [List.takeWhile_cons_of_pos (by rw [h a (List.mem_cons_self a t)]),
      ih (fun c hc => h c (List.mem_cons_of_mem a hc))]

theorem c6_dropWhile_digits (ds : List Char) (h : ∀ c ∈ ds, c.isDigit = true) :
    (ds ++ [']']).dropWhile Char.isDigit = [']'] := by
  induction ds with
  | nil => rfl
  | cons a t ih =>
    show ((a :: (t ++ [']'])).dropWhile Char.isDigit) = [']']
    rw [List.dropWhile_cons_of_pos (by rw [h a (List.mem_cons_self a t)]),
      ih (fun c hc => h c (List.mem_cons_of_mem a hc))]

theorem c6_matchAt_digits (lit : String) (cs ds : List Char)
    (hstrip : MApp.stripLit lit.data cs = some ('[' :: (ds ++ [']'])))
    (hne : ds ≠ []) (hds : ∀ c ∈ ds, c.isDigit = true) :
    MApp.hierMatchAt lit cs = some (MApp.digitsVal ds, []) := by
  unfold MApp.hierMatchAt
  rw [hstrip]
  show (if ((ds ++ [']']).takeWhile Char.isDigit).isEmpty then none
    else (MApp.stripChar ']' ((ds ++ [']']).dropWhile Char.isDigit)).bind
      (fun r3 => some (MApp.digitsVal ((ds ++ [']']).takeWhile Char.isDigit), r3))) = _
  rw [c6_takeWhile_digits ds hds, c6_dropWhile_digits ds hds]
  cases ds with
  | nil => exact absurd rfl hne
  | cons a t => rfl

theorem c6_scan_digits_skip (lit : String) (l0 : Char) (lrest : List Char)
    (hl : lit.data = l0 :: lrest) (h0 : l0.isDigit = false) (ds tail : List Char)
    (hds : ∀ c ∈ ds, c.isDigit = true) :
    MApp.hierScan lit (ds ++ tail) = MApp.hierScan lit tail := by
  induction ds with
  | nil => rfl
  | cons d dt ih =>
    have hd : d.isDigit = true := hds d (List.mem_cons_self d dt)
    have hne : d ≠ l0 := by
      intro he
      rw [he, h0] at hd
      exact Bool.noConfusion hd
    have hma : MApp.hierMatchAt lit (d :: (dt ++ tail)) = none := by
      unfold MApp.hierMatchAt
      have hsl : MApp.stripLit lit.data (d :: (dt ++ tail)) = none := by
        rw [hl]
        show (if d = l0 then MApp.stripLit lrest (dt ++ tail) else none) = none
        rw [if_neg hne]
      rw [hsl]
      rfl
    show (match MApp.hierMatchAt lit (d :: (dt ++ tail)) with
      | some (i, _) => some i
      | none => MApp.hierScan lit (dt ++ tail)) = _
    rw [hma]
    exact ih (fun c hc => hds c (List.mem_cons_of_mem d hc))

theorem c6_scan_of_matchAt (lit : String) (c : Char) (cs : List Char) (i : Nat)
    (r : List Char) (h : MApp.hierMatchAt lit (c :: cs) = some (i, r)) :
    MApp.hierScan lit (c :: cs) = some i := by
  show (match MApp.hierMatchAt lit (c :: cs) with
    | some (i, _) => some i
    | none => MApp.hierScan lit cs) = _
  rw [h]

theorem c6_scan_sub_pos (ds : List Char) (hne : ds ≠ [])
    (hds : ∀ c ∈ ds, c.isDigit = true) :
    MApp.hierScan "subdivision" ("subdivision[" ++ String.mk ds ++ "]").data =
      some (MApp.digitsVal ds) :=
  c6_scan_of_matchAt "subdivision" 's' ("ubdivision[".data ++ (ds ++ [']']))
    (MApp.digitsVal ds) []
    (c6_matchAt_digits "subdivision" ('s' :: ("ubdivision[".data ++ (ds ++ [']']))) ds
      rfl hne hds)

theorem c6_scan_div_pos (ds : List Char) (hne : ds ≠ [])
    (hds : ∀ c ∈ ds, c.isDigit = true) :
    MApp.hierScan "division" ("division[" ++ String.mk ds ++ "]").data =
      some (MApp.digitsVal ds) :=
  c6_scan_of_matchAt "division" 'd' ("ivision[".data ++ (ds ++ [']']))
    (MApp.digitsVal ds) []
    (c6_matchAt_digits "division" ('d' :: ("ivision[".data ++ (ds ++ [']']))) ds
      rfl hne hds)

theorem c6_scan_path_pos (ds : List Char) (hne : ds ≠ [])
    (hds : ∀ c ∈ ds, c.isDigit = true) :
    MApp.hierScan "path" ("path[" ++ String.mk ds ++ "]").data =
      some (MApp.digitsVal ds) :=
  c6_scan_of_matchAt "path" 'p' ("ath[".data ++ (ds ++ [']']))
    (MApp.digitsVal ds) []
    (c6_matchAt_digits "path" ('p' :: ("ath[".data ++ (ds ++ [']']))) ds
      rfl hne hds)

theorem c6_scan_sub_of_div (ds : List Char) (hds : ∀ c ∈ ds, c.isDigit = true) :
    MApp.hierScan "subdivision" ("division[" ++ String.mk ds ++ "]").data = none := by
  have h1 : MApp.hierScan "subdivision" ("division[" ++ String.mk ds ++ "]").data =
      MApp.hierScan "subdivision" (ds ++ [']']) := rfl
  rw [h1, c6_scan_digits_skip "subdivision" 's' "ubdivision".data rfl (by decide) ds [']'] hds]
  rfl

theorem c6_scan_sub_of_path (ds : List Char) (hds : ∀ c ∈ ds, c.isDigit = true) :
    MApp.hierScan "subdivision" ("path[" ++ String.mk ds ++ "]").data = none := by
  have h1 : MApp.hierScan "subdivision" ("path[" ++ String.mk ds ++ "]").data =
      MApp.hierScan "subdivision" (ds ++ [']']) := rfl
  rw [h1, c6_scan_digits_skip "subdivision" 's' "ubdivision".data rfl (by decide) ds [']'] hds]
  rfl

theorem c6_scan_div_of_path (ds : List Char) (hds : ∀ c ∈ ds, c.isDigit = true) :
    MApp.hierScan "division" ("path[" ++ String.mk ds ++ "]").data = none := by
  have h1 : MApp.hierScan "division" ("path[" ++ String.mk ds ++ "]").data =
      MApp.hierScan "division" (ds ++ [']']) := rfl
  rw [h1, c6_scan_digits_skip "division" 'd' "ivision".data rfl (by decide) ds [']'] hds]
  rfl

theorem c6_extract_sub_ok (ds : List Char) (sv dv pv : List String) (hne : ds ≠ [])
    (hds : ∀ c ∈ ds, c.isDigit = true) (hlt : MApp.digitsVal ds < sv.length) :
    MApp.extractHierarchyValue ("subdivision[" ++ String.mk ds ++ "]") sv dv pv =
      .ok ((sv.get? (MApp.digitsVal ds)).getD "") := by
  unfold MApp.extractHierarchyValue
  rw [c6_scan_sub_pos ds hne hds]
  show (if sv.length ≤ MApp.digitsVal ds then
      MApp.PResult.err (.subdivisionError ("Invalid subdivision index " ++
        toString (MApp.digitsVal ds) ++ ". Subdivision has " ++ toString sv.length ++
        " elements: [" ++ MApp.joinSep ", " sv ++ "]") ""
        ("subdivision[" ++ String.mk ds ++ "]"))
    else .ok ((sv.get? (MApp.digitsVal ds)).getD "")) = _
  rw [if_neg (not_le.mpr hlt)]

theorem c6_extract_sub_err (ds : List Char) (sv dv pv : List String) (hne : ds ≠ [])
    (hds : ∀ c ∈ ds, c.isDigit = true) (hge : sv.length ≤ MApp.digitsVal ds) :
    MApp.extractHierarchyValue ("subdivision[" ++ String.mk ds ++ "]") sv dv pv =
      .err (.subdivisionError ("Invalid subdivision index " ++
        toString (MApp.digitsVal ds) ++ ". Subdivision has " ++ toString sv.length ++
        " elements: [" ++ MApp.joinSep ", " sv ++ "]") ""
        ("subdivision[" ++ String.mk ds ++ "]")) := by
  unfold MApp.extractHierarchyValue
  rw [c6_scan_sub_pos ds hne hds]
  show (if sv.length ≤ MApp.digitsVal ds then
      MApp.PResult.err (.subdivisionError ("Invalid subdivision index " ++
        toString (MApp.digitsVal ds) ++ ". Subdivision has " ++ toString sv.length ++
        " elements: [" ++ MApp.joinSep ", " sv ++ "]") ""
        ("subdivision[" ++ String.mk ds ++ "]"))
    else .ok ((sv.get? (MApp.digitsVal ds)).getD "")) = _
  rw [if_pos hge]

theorem c6_extract_div_ok (ds : List Char) (sv dv pv : List String) (hne : ds ≠ [])
    (hds : ∀ c ∈ ds, c.isDigit = true) (hlt : MApp.digitsVal ds < dv.length) :
    MApp.extractHierarchyValue ("division[" ++ String.mk ds ++ "]") sv dv pv =
      .ok ((dv.get? (MApp.digitsVal ds)).getD "") := by
  unfold MApp.extractHierarchyValue
  rw [c6_scan_sub_of_div ds hds, c6_scan_div_pos ds hne hds]
  show (if dv.length ≤ MApp.digitsVal ds then
      MApp.PResult.err (.subdivisionError ("Invalid division index " ++
        toString (MApp.digitsVal ds) ++ ". Division has " ++ toString dv.length ++
        " elements: [" ++ MApp.joinSep ", " dv ++ "]") ""
        ("division[" ++ String.mk ds ++ "]"))
    else .ok ((dv.get? (MApp.digitsVal ds)).getD "")) = _
  rw [if_neg (not_le.mpr hlt)]

theorem c6_extract_div_err (ds : List Char) (sv dv pv : List String) (hne : ds ≠ [])
    (hds : ∀ c ∈ ds, c.isDigit = true) (hge : dv.length ≤ MApp.digitsVal ds) :
    MApp.extractHierarchyValue ("division[" ++ String.mk ds ++ "]") sv dv pv =
      .err (.subdivisionError ("Invalid division index " ++
        toString (MApp.digitsVal ds) ++ ". Division has " ++ toString dv.length ++
        " elements: [" ++ MApp.joinSep ", " dv ++ "]") ""
        ("division[" ++ String.mk ds ++ "]")) := by
  unfold MApp.extractHierarchyValue
  rw [c6_scan_sub_of_div ds hds, c6_scan_div_pos ds hne hds]
  show (if dv.length ≤ MApp.digitsVal ds then
      MApp.PResult.err (.subdivisionError ("Invalid division index " ++
        toString (MApp.digitsVal ds) ++ ". Division has " ++ toString dv.length ++
        " elements: [" ++ MApp.joinSep ", " dv ++ "]") ""
        ("division[" ++ String.mk ds ++ "]"))
    else .ok ((dv.get? (MApp.digitsVal ds)).getD "")) = _
  rw [if_pos hge]

theorem c6_extract_path_ok (ds : List Char) (sv dv pv : List String) (hne : ds ≠ [])
    (hds : ∀ c ∈ ds, c.isDigit = true) (hlt : MApp.digitsVal ds < pv.length) :
    MApp.extractHierarchyValue ("path[" ++ String.mk ds ++ "]") sv dv pv =
      .ok ((pv.get? (MApp.digitsVal ds)).getD "") := by
  unfold MApp.extractHierarchyValue
  rw [c6_scan_sub_of_path ds hds, c6_scan_div_of_path ds hds, c6_scan_path_pos ds hne hds]
  show (if pv.length ≤ MApp.digitsVal ds then
      MApp.PResult.err (.subdivisionError ("Invalid path index " ++
        toString (MApp.digitsVal ds) ++ ". Path has " ++ toString pv.length ++
        " elements: [" ++ MApp.joinSep ", " pv ++ "]") ""
        ("path[" ++ String.mk ds ++ "]"))
    else .ok ((pv.get? (MApp.digitsVal ds)).getD "")) = _
  rw [if_neg (not_le.mpr hlt)]

theorem c6_extract_path_err (ds : List Char) (sv dv pv : List String) (hne : ds ≠ [])
    (hds : ∀ c ∈ ds, c.isDigit = true) (hge : pv.length ≤ MApp.digitsVal ds) :
    MApp.extractHierarchyValue ("path[" ++ String.mk ds ++ "]") sv dv pv =
      .err (.subdivisionError ("Invalid path index " ++
        toString (MApp.digitsVal ds) ++ ". Path has " ++ toString pv.length ++
        " elements: [" ++ MApp.joinSep ", " pv ++ "]") ""
        ("path[" ++ String.mk ds ++ "]")) := by
  unfold MApp.extractHierarchyValue
  rw [c6_scan_sub_of_path ds hds, c6_scan_div_of_path ds hds, c6_scan_path_pos ds hne hds]
  show (if pv.length ≤ MApp.digitsVal ds then
      MApp.PResult.err (.subdivisionError ("Invalid path index " ++
        toString (MApp.digitsVal ds) ++ ". Path has " ++ toString pv.length ++
        " elements: [" ++ MApp.joinSep ", " pv ++ "]") ""
        ("path[" ++ String.mk ds ++ "]"))
    else .ok ((pv.get? (MApp.digitsVal ds)).getD "")) = _
  rw [if_pos hge]

theorem c6_digit_not_ws (c : Char) (h : c.isDigit = true) : c.isWhitespace = false := by
  by_contra hne
  rw [Bool.not_eq_false] at hne
  simp [Char.isWhitespace] at hne
  rcases hne with ((h1 | h1) | h1) | h1 <;> subst h1 <;> exact absurd h (by decide)

theorem c6_dropWhile_nows (l : List Char) (h : ∀ c ∈ l, c.isWhitespace = false) :
    l.dropWhile Char.isWhitespace = l := by
  cases l with
  | nil => rfl
  | cons a t => exact List.dropWhile_cons_of_neg (by rw [h a (List.mem_cons_self a t)]; exact Bool.false_ne_true)

theorem c6_trim_id (F : String) (h : ∀ c ∈ F.data, c.isWhitespace = false) :
    MApp.jsTrim F = F := by
  unfold MApp.jsTrim
  rw [c6_dropWhile_nows _ h,
    c6_dropWhile_nows _ (fun c hc => h c (List.mem_reverse.mp hc)),
    List.reverse_reverse]

theorem c6_nows_cat (P : List Char) (hP : ∀ c ∈ P, c.isWhitespace = false)
    (ds : List Char) (hds : ∀ c ∈ ds, c.isDigit = true) :
    ∀ c ∈ (P ++ ds) ++ [']'], c.isWhitespace = false := by
  intro c hc
  rcases List.mem_append.mp hc with h | h
  · rcases List.mem_append.mp h with h2 | h2
    · exact hP c h2
    · exact c6_digit_not_ws c (hds c h2)
  · rw [List.mem_singleton.mp h]
    rfl

theorem c6_exact_pos (lit : String) (F : String) (ds : List Char)
    (hm : MApp.hierMatchAt lit F.data = some (MApp.digitsVal ds, [])) :
    MApp.hierExact lit F = some (MApp.digitsVal ds) := by
  unfold MApp.hierExact
  rw [hm]

theorem c6_hier_sub (ds : List Char) (hne : ds ≠ []) (hds : ∀ c ∈ ds, c.isDigit = true) :
    MApp.isHierarchyOnlyFormula ("subdivision[" ++ String.mk ds ++ "]") = true := by
  have ht : MApp.jsTrim ("subdivision[" ++ String.mk ds ++ "]") =
      ("subdivision[" ++ String.mk ds ++ "]") :=
    c6_trim_id _ (c6_nows_cat "subdivision[".data (by decide) ds hds)
  show decide
      ((MApp.hierExact "subdivision" (MApp.jsTrim ("subdivision[" ++ String.mk ds ++ "]"))).isSome = true ∨
        (MApp.hierExact "division" (MApp.jsTrim ("subdivision[" ++ String.mk ds ++ "]"))).isSome = true ∨
        (MApp.hierExact "path" (MApp.jsTrim ("subdivision[" ++ String.mk ds ++ "]"))).isSome = true) = true
  exact decide_eq_true (Or.inl (by
    rw [ht, c6_exact_pos "subdivision" ("subdivision[" ++ String.mk ds ++ "]") ds
      (c6_matchAt_digits "subdivision" ("subdivision[" ++ String.mk ds ++ "]").data ds
        rfl hne hds)]
    rfl))

theorem c6_hier_div (ds : List Char) (hne : ds ≠ []) (hds : ∀ c ∈ ds, c.isDigit = true) :
    MApp.isHierarchyOnlyFormula ("division[" ++ String.mk ds ++ "]") = true := by
  have ht : MApp.jsTrim ("division[" ++ String.mk ds ++ "]") =
      ("division[" ++ String.mk ds ++ "]") :=
    c6_trim_id _ (c6_nows_cat "division[".data (by decide) ds hds)
  show decide
      ((MApp.hierExact "subdivision" (MApp.jsTrim ("division[" ++ String.mk ds ++ "]"))).isSome = true ∨
        (MApp.hierExact "division" (MApp.jsTrim ("division[" ++ String.mk ds ++ "]"))).isSome = true ∨
        (MApp.hierExact "path" (MApp.jsTrim ("division[" ++ String.mk ds ++ "]"))).isSome = true) = true
  exact decide_eq_true (Or.inr (Or.inl (by
    rw [ht, c6_exact_pos "division" ("division[" ++ String.mk ds ++ "]") ds
      (c6_matchAt_digits "division" ("division[" ++ String.mk ds ++ "]").data ds
        rfl hne hds)]
    rfl)))

theorem c6_hier_path (ds : List Char) (hne : ds ≠ []) (hds : ∀ c ∈ ds, c.isDigit = true) :
    MApp.isHierarchyOnlyFormula ("path[" ++ String.mk ds ++ "]") = true := by
  have ht : MApp.jsTrim ("path[" ++ String.mk ds ++ "]") =
      ("path[" ++ String.mk ds ++ "]") :=
    c6_trim_id _ (c6_nows_cat "path[".data (by decide) ds hds)
  show decide
      ((MApp.hierExact "subdivision" (MApp.jsTrim ("path[" ++ String.mk ds ++ "]"))).isSome = true ∨
        (MApp.hierExact "division" (MApp.jsTrim ("path[" ++ String.mk ds ++ "]"))).isSome = true ∨
        (MApp.hierExact "path" (MApp.jsTrim ("path[" ++ String.mk ds ++ "]"))).isSome = true) = true
  exact decide_eq_true (Or.inr (Or.inr (by
    rw [ht, c6_exact_pos "path" ("path[" ++ String.mk ds ++ "]") ds
      (c6_matchAt_digits "path" ("path[" ++ String.mk ds ++ "]").data ds
        rfl hne hds)]
    rfl)))

theorem c6_fields_ok (sv dv pv : List String) (F v : String)
    (hhier : MApp.isHierarchyOnlyFormula F = true)
    (hex : MApp.extractHierarchyValue F sv dv pv = .ok v) :
    MApp.Populate.populateFields (MApp.c6state sv dv pv F) [MApp.c6field F]
      MApp.c6root (-1000) = .ok (MApp.c6root.withChildren [MApp.c6child v], -999) := by
  show (if ¬ (MApp.isHierarchyOnlyFormula F = true) then
      MApp.PResult.ok (MApp.c6root, (-1000 : Int))
    else match MApp.extractHierarchyValue F sv dv pv with
      | .err e => .err (e.withFieldId "f")
      | .ok v => .ok (MApp.c6root.withChildren [MApp.c6child v], -999)) = _
  rw [if_neg (not_not_intro hhier), hex]

theorem c6_fields_err (sv dv pv : List String) (F : String) (e : MApp.PipelineError)
    (hhier : MApp.isHierarchyOnlyFormula F = true)
    (hex : MApp.extractHierarchyValue F sv dv pv = .err e) :
    MApp.Populate.populateFields (MApp.c6state sv dv pv F) [MApp.c6field F]
      MApp.c6root (-1000) = .err (e.withFieldId "f") := by
  show (if ¬ (MApp.isHierarchyOnlyFormula F = true) then
      MApp.PResult.ok (MApp.c6root, (-1000 : Int))
    else match MApp.extractHierarchyValue F sv dv pv with
      | .err e => .err (e.withFieldId "f")
      | .ok v => .ok (MApp.c6root.withChildren [MApp.c6child v], -999)) = _
  rw [if_neg (not_not_intro hhier), hex]

theorem c6_fields_ow (sv dv pv : List String) (F v : String)
    (hhier : MApp.isHierarchyOnlyFormula F = true)
    (hex : MApp.extractHierarchyValue F sv dv pv = .ok v) :
    MApp.Populate.populateFields (MApp.c6owState sv dv pv F) [MApp.c6field F]
      MApp.c6owRoot (-1000) =
      .ok (MApp.c6owRoot.withChildren
        [.mk ⟨7, "u", "A", some 1, ⟨0, 0⟩, none, none, ⟨0, 0⟩, ⟨0, 0⟩⟩ none
          (some ⟨7, "f", none, none, some (.str v), none, none, none⟩) (some "f") []],
        -1000) := by
  show (if ¬ (MApp.isHierarchyOnlyFormula F = true) then
      MApp.PResult.ok (MApp.c6owRoot, (-1000 : Int))
    else match MApp.extractHierarchyValue F sv dv pv with
      | .err e => .err (e.withFieldId "f")
      | .ok v => .ok (MApp.c6owRoot.withChildren
          [.mk ⟨7, "u", "A", some 1, ⟨0, 0⟩, none, none, ⟨0, 0⟩, ⟨0, 0⟩⟩ none
            (some ⟨7, "f", none, none, some (.str v), none, none, none⟩) (some "f") []],
          -1000)) = _
  rw [if_neg (not_not_intro hhier), hex]

theorem c6_proc_ok (sv dv pv : List String) (F v : String)
    (hhier : MApp.isHierarchyOnlyFormula F = true)
    (hex : MApp.extractHierarchyValue F sv dv pv = .ok v) :
    MApp.Populate.processEntry (MApp.c6state sv dv pv F) 5
      (MApp.c6state sv dv pv F).root (-1000) =
      .ok (MApp.c6root.withChildren [MApp.c6child v], -999) := by
  show (match MApp.Populate.populateFields (MApp.c6state sv dv pv F) [MApp.c6field F]
      MApp.c6root (-1000) with
    | .err e => (.err e : MApp.PResult (MApp.ResolvedEntry × Int))
    | .ok (re', c1) =>
        match MApp.Populate.processChildren (MApp.c6state sv dv pv F) 4 re'.children c1 with
        | .err e => .err e
        | .ok (cs, c2) => .ok (re'.withChildren cs, c2)) = _
  rw [c6_fields_ok sv dv pv F v hhier hex]
  rfl

theorem c6_proc_err (sv dv pv : List String) (F : String) (e : MApp.PipelineError)
    (hhier : MApp.isHierarchyOnlyFormula F = true)
    (hex : MApp.extractHierarchyValue F sv dv pv = .err e) :
    MApp.Populate.processEntry (MApp.c6state sv dv pv F) 5
      (MApp.c6state sv dv pv F).root (-1000) = .err (e.withFieldId "f") := by
  show (match MApp.Populate.populateFields (MApp.c6state sv dv pv F) [MApp.c6field F]
      MApp.c6root (-1000) with
    | .err e => (.err e : MApp.PResult (MApp.ResolvedEntry × Int))
    | .ok (re', c1) =>
        match MApp.Populate.processChildren (MApp.c6state sv dv pv F) 4 re'.children c1 with
        | .err e => .err e
        | .ok (cs, c2) => .ok (re'.withChildren cs, c2)) = _
  rw [c6_fields_err sv dv pv F e hhier hex]

theorem c6_proc_ow (sv dv pv : List String) (F v : String)
    (hhier : MApp.isHierarchyOnlyFormula F = true)
    (hex : MApp.extractHierarchyValue F sv dv pv = .ok v) :
    MApp.Populate.processEntry (MApp.c6owState sv dv pv F) 5
      (MApp.c6owState sv dv pv F).root (-1000) =
      .ok (MApp.c6owRoot.withChildren
        [.mk ⟨7, "u", "A", some 1, ⟨0, 0⟩, none, none, ⟨0, 0⟩, ⟨0, 0⟩⟩ none
          (some ⟨7, "f", none, none, some (.str v), none, none, none⟩) (some "f") []],
        -1000) := by
  show (match MApp.Populate.populateFields (MApp.c6owState sv dv pv F) [MApp.c6field F]
      MApp.c6owRoot (-1000) with
    | .err e => (.err e : MApp.PResult (MApp.ResolvedEntry × Int))
    | .ok (re', c1) =>
        match MApp.Populate.processChildren (MApp.c6owState sv dv pv F) 4 re'.children c1 with
        | .err e => .err e
        | .ok (cs, c2) => .ok (re'.withChildren cs, c2)) = _
  rw [c6_fields_ow sv dv pv F v hhier hex]
  rfl

theorem c6_run_ok (sv dv pv : List String) (F v : String)
    (hhier : MApp.isHierarchyOnlyFormula F = true)
    (hex : MApp.extractHierarchyValue F sv dv pv = .ok v) :
    MApp.populateFromSubdivision 5 (MApp.c6state sv dv pv F) =
      .ok (MApp.c6done sv dv pv F v) := by
  unfold MApp.populateFromSubdivision
  rw [c6_proc_ok sv dv pv F v hhier hex]
  rfl

theorem c6_run_err (sv dv pv : List String) (F : String) (e : MApp.PipelineError)
    (hhier : MApp.isHierarchyOnlyFormula F = true)
    (hex : MApp.extractHierarchyValue F sv dv pv = .err e) :
    MApp.populateFromSubdivision 5 (MApp.c6state sv dv pv F) =
      .err (e.withFieldId "f") := by
  unfold MApp.populateFromSubdivision
  rw [c6_proc_err sv dv pv F e hhier hex]

theorem c6_run_ow (sv dv pv : List String) (F v : String)
    (hhier : MApp.isHierarchyOnlyFormula F = true)
    (hex : MApp.extractHierarchyValue F sv dv pv = .ok v) :
    MApp.populateFromSubdivision 5 (MApp.c6owState sv dv pv F) =
      .ok (MApp.c6owDone sv dv pv F v) := by
  unfold MApp.populateFromSubdivision
  rw [c6_proc_ow sv dv pv F v hhier hex]
  rfl

/-- C6: on a metric node carrying a formula field whose formula is exactly
`subdivision[i]`, `division[i]` or `path[i]` (any non-empty digit string `i`),
`populateFromSubdivision` writes the corresponding state vector's `i`-th token
into the attribute child tagged by the field — synthesizing a new child with
the next provisional id (−1000 here) when none exists, or overwriting the
existing child in place — and an out-of-range index fails with
`SUBDIVISION_ERROR` carrying the offending index, the vector's length and the
field id. -/
theorem C6_hierarchy_population :
    ∀ (ds : List Char) (sv dv pv : List String),
      ds ≠ [] → (∀ c ∈ ds, c.isDigit = true) →
      (∀ hlt : MApp.digitsVal ds < sv.length,
        MApp.populateFromSubdivision 5
          (MApp.c6state sv dv pv ("subdivision[" ++ String.mk ds ++ "]")) =
          .ok (MApp.c6done sv dv pv ("subdivision[" ++ String.mk ds ++ "]")
            (sv.get ⟨MApp.digitsVal ds, hlt⟩))) ∧
      (∀ hlt : MApp.digitsVal ds < sv.length,
        MApp.populateFromSubdivision 5
          (MApp.c6owState sv dv pv ("subdivision[" ++ String.mk ds ++ "]")) =
          .ok (MApp.c6owDone sv dv pv ("subdivision[" ++ String.mk ds ++ "]")
            (sv.get ⟨MApp.digitsVal ds, hlt⟩))) ∧
      (sv.length ≤ MApp.digitsVal ds →
        MApp.populateFromSubdivision 5
          (MApp.c6state sv dv pv ("subdivision[" ++ String.mk ds ++ "]")) =
          .err (.subdivisionError ("Invalid subdivision index " ++
            toString (MApp.digitsVal ds) ++ ". Subdivision has " ++ toString sv.length ++
            " elements: [" ++ MApp.joinSep ", " sv ++ "]") "f"
            ("subdivision[" ++ String.mk ds ++ "]"))) ∧
      (∀ hlt : MApp.digitsVal ds < dv.length,
        MApp.populateFromSubdivision 5
          (MApp.c6state sv dv pv ("division[" ++ String.mk ds ++ "]")) =
          .ok (MApp.c6done sv dv pv ("division[" ++ String.mk ds ++ "]")
            (dv.get ⟨MApp.digitsVal ds, hlt⟩))) ∧
      (dv.length ≤ MApp.digitsVal ds →
        MApp.populateFromSubdivision 5
          (MApp.c6state sv dv pv ("division[" ++ String.mk ds ++ "]")) =
          .err (.subdivisionError ("Invalid division index " ++
            toString (MApp.digitsVal ds) ++ ". Division has " ++ toString dv.length ++
            " elements: [" ++ MApp.joinSep ", " dv ++ "]") "f"
            ("division[" ++ String.mk ds ++ "]"))) ∧
      (∀ hlt : MApp.digitsVal ds < pv.length,
        MApp.populateFromSubdivision 5
          (MApp.c6state sv dv pv ("path[" ++ String.mk ds ++ "]")) =
          .ok (MApp.c6done sv dv pv ("path[" ++ String.mk ds ++ "]")
            (pv.get ⟨MApp.digitsVal ds, hlt⟩))) ∧
      (pv.length ≤ MApp.digitsVal ds →
        MApp.populateFromSubdivision 5
          (MApp.c6state sv dv pv ("path[" ++ String.mk ds ++ "]")) =
          .err (.subdivisionError ("Invalid path index " ++
            toString (MApp.digitsVal ds) ++ ". Path has " ++ toString pv.length ++
            " elements: [" ++ MApp.joinSep ", " pv ++ "]") "f"
            ("path[" ++ String.mk ds ++ "]"))) := by
  intro ds sv dv pv hne hds
  refine ⟨?_, ?_, ?_, ?_, ?_, ?_, ?_⟩
  · intro hlt
    have hv : (sv.get? (MApp.digitsVal ds)).getD "" =
        sv.get ⟨MApp.digitsVal ds, hlt⟩ := by
      rw [List.get?_eq_get hlt]
      rfl
    have h := c6_run_ok sv dv pv ("subdivision[" ++ String.mk ds ++ "]") _
      (c6_hier_sub ds hne hds) (c6_extract_sub_ok ds sv dv pv hne hds hlt)
    rw [hv] at h
    exact h
  · intro hlt
    have hv : (sv.get? (MApp.digitsVal ds)).getD "" =
        sv.get ⟨MApp.digitsVal ds, hlt⟩ := by
      rw [List.get?_eq_get hlt]
      rfl
    have h := c6_run_ow sv dv pv ("subdivision[" ++ String.mk ds ++ "]") _
      (c6_hier_sub ds hne hds) (c6_extract_sub_ok ds sv dv pv hne hds hlt)
    rw [hv] at h
    exact h
  · intro hge
    exact c6_run_err sv dv pv ("subdivision[" ++ String.mk ds ++ "]") _
      (c6_hier_sub ds hne hds) (c6_extract_sub_err ds sv dv pv hne hds hge)
  · intro hlt
    have hv : (dv.get? (MApp.digitsVal ds)).getD "" =
        dv.get ⟨MApp.digitsVal ds, hlt⟩ := by
      rw [List.get?_eq_get hlt]
      rfl
    have h := c6_run_ok sv dv pv ("division[" ++ String.mk ds ++ "]") _
      (c6_hier_div ds hne hds) (c6_extract_div_ok ds sv dv pv hne hds hlt)
    rw [hv] at h
    exact h
  · intro hge
    exact c6_run_err sv dv pv ("division[" ++ String.mk ds ++ "]") _
      (c6_hier_div ds hne hds) (c6_extract_div_err ds sv dv pv hne hds hge)
  · intro hlt
    have hv : (pv.get? (MApp.digitsVal ds)).getD "" =
        pv.get ⟨MApp.digitsVal ds, hlt⟩ := by
      rw [List.get?_eq_get hlt]
      rfl
    have h := c6_run_ok sv dv pv ("path[" ++ String.mk ds ++ "]") _
      (c6_hier_path ds hne hds) (c6_extract_path_ok ds sv dv pv hne hds hlt)
    rw [hv] at h
    exact h
  · intro hge
    exact c6_run_err sv dv pv ("path[" ++ String.mk ds ++ "]") _
      (c6_hier_path ds hne hds) (c6_extract_path_err ds sv dv pv hne hds hge)

theorem C6_witness :
    MApp.populateFromSubdivision 5
      (MApp.c6state ["north", "west"] ["d0"] ["p0"] "subdivision[1]") =
      .ok (MApp.c6done ["north", "west"] ["d0"] ["p0"] "subdivision[1]" "west") :=
  (C6_hierarchy_population ['1'] ["north", "west"] ["d0"] ["p0"] (by decide) (by decide)).1 (by decide)

theorem c5_countI_append (i : Int) (a b : List Int) :
    MApp.countI i (a ++ b) = MApp.countI i a + MApp.countI i b := by
  induction a with
  | nil => simp [MApp.countI]
  | cons x t ih =>
    show (if x = i then 1 else 0) + MApp.countI i (t ++ b) =
      (if x = i then 1 else 0) + MApp.countI i t + MApp.countI i b
    rw [ih]
    omega

theorem c5_idsList_append (a b : List MApp.ResolvedEntry) :
    MApp.treeIdsList (a ++ b) = MApp.treeIdsList a ++ MApp.treeIdsList b := by
  induction a with
  | nil => rfl
  | cons x t ih =>
    show MApp.treeIds x ++ MApp.treeIdsList (t ++ b) =
      (MApp.treeIds x ++ MApp.treeIdsList t) ++ MApp.treeIdsList b
    rw [ih, List.append_assoc]

theorem c5_ids_decomp (re : MApp.ResolvedEntry) :
    MApp.treeIds re = re.entry.id :: MApp.treeIdsList re.children := by
  cases re
  rfl

theorem c5_ids_withChildren (re : MApp.ResolvedEntry) (cs : List MApp.ResolvedEntry) :
    MApp.treeIds (re.withChildren cs) = re.entry.id :: MApp.treeIdsList cs := by
  cases re
  rfl

theorem c5_ids_withAttr (re : MApp.ResolvedEntry) (a : Option MApp.AttributeEntry) :
    MApp.treeIds (re.withAttributeEntry a) = MApp.treeIds re := by
  cases re
  rfl

theorem c5_ids_withField (re : MApp.ResolvedEntry) (f : Option String) :
    MApp.treeIds (re.withFieldId f) = MApp.treeIds re := by
  cases re
  rfl

theorem c5_ids_overwriteFirst (p : MApp.ResolvedEntry → Bool)
    (f : MApp.ResolvedEntry → MApp.ResolvedEntry)
    (hf : ∀ x, MApp.treeIds (f x) = MApp.treeIds x) (cs : List MApp.ResolvedEntry) :
    MApp.treeIdsList (MApp.overwriteFirst p f cs) = MApp.treeIdsList cs := by
  induction cs with
  | nil => rfl
  | cons x t ih =>
    show MApp.treeIdsList (if p x then f x :: t else x :: MApp.overwriteFirst p f t) = _
    by_cases hp : p x
    · rw [if_pos hp]
      show MApp.treeIds (f x) ++ MApp.treeIdsList t = _
      rw [hf x]
      rfl
    · rw [if_neg hp]
      show MApp.treeIds x ++ MApp.treeIdsList (MApp.overwriteFirst p f t) = _
      rw [ih]
      rfl

theorem c5_indR_compose (c c1 c2 i : Int) (h1 : c ≤ c1) (h2 : c1 ≤ c2) :
    MApp.indR c c1 i + MApp.indR c1 c2 i ≤ MApp.indR c c2 i := by
  unfold MApp.indR
  split_ifs <;> omega

theorem c5_popFields_count (st : MApp.PipelineState) :
    ∀ (fs : List MApp.Field) (re : MApp.ResolvedEntry) (c : Int)
      (re' : MApp.ResolvedEntry) (c' : Int),
      MApp.Populate.populateFields st fs re c = .ok (re', c') →
      c ≤ c' ∧ ∀ i, MApp.countI i (MApp.treeIds re') ≤
        MApp.countI i (MApp.treeIds re) + MApp.indR c c' i := by
  intro fs
  induction fs with
  | nil =>
    intro re c re' c' h
    unfold MApp.Populate.populateFields at h
    cases h
    exact ⟨le_refl _, fun i => by simp [MApp.indR]⟩
  | cons field rest ih =>
    intro re c re' c' h
    unfold MApp.Populate.populateFields at h
    dsimp only at h
    split at h
    · exact ih re c re' c' h
    · split at h
      · exact ih re c re' c' h
      · split at h
        · exact ih re c re' c' h
        · split at h
          · exact absurd h (by simp)
          · split at h
            · exact ih re c re' c' h
            · split at h
              · exact ih re c re' c' h
              · split at h
                · -- overwrite branch
                  obtain ⟨h1, h2⟩ := ih _ _ _ _ h
                  refine ⟨h1, fun i => ?_⟩
                  have hb := h2 i
                  rw [c5_ids_withChildren, c5_ids_overwriteFirst _ _ ?hf,
                    ← c5_ids_decomp] at hb
                  · exact hb
                  case hf =>
                    intro x
                    cases x with
                    | mk e m a f cs =>
                      cases a with
                      | none => rfl
                      | some ae =>
                        repeat' split
                        all_goals rfl
                · -- synthesize branch
                  obtain ⟨h1, h2⟩ := ih _ _ _ _ h
                  refine ⟨by omega, fun i => ?_⟩
                  have hb := h2 i
                  rw [c5_ids_withChildren, c5_idsList_append] at hb
                  rw [c5_ids_decomp re]
                  simp only [MApp.countI, MApp.treeIds, MApp.treeIdsList,
                    c5_countI_append] at hb ⊢
                  unfold MApp.indR at hb ⊢
                  split_ifs at hb ⊢ <;> omega

theorem c5_pop_count (st : MApp.PipelineState) :
    ∀ fuel : Nat,
      (∀ re c re' c', MApp.Populate.processEntry st fuel re c = .ok (re', c') →
        c ≤ c' ∧ ∀ i, MApp.countI i (MApp.treeIds re') ≤
          MApp.countI i (MApp.treeIds re) + MApp.indR c c' i) ∧
      (∀ cs c cs' c', MApp.Populate.processChildren st fuel cs c = .ok (cs', c') →
        c ≤ c' ∧ ∀ i, MApp.countI i (MApp.treeIdsList cs') ≤
          MApp.countI i (MApp.treeIdsList cs) + MApp.indR c c' i) := by
  intro fuel
  induction fuel with
  | zero =>
    constructor
    · intro re c re' c' h
      exact absurd h (by simp [MApp.Populate.processEntry])
    · intro cs c cs' c' h
      exact absurd h (by simp [MApp.Populate.processChildren])
  | succ fuel ih =>
    obtain ⟨ihE, ihC⟩ := ih
    constructor
    · intro re c re' c' h
      unfold MApp.Populate.processEntry at h
      dsimp only at h
      split at h
      · -- definition not found: recurse into children
        split at h
        · exact absurd h (by simp)
        · cases h
          rename_i cs0 c0 heq
          obtain ⟨hc1, hc2⟩ := ihC _ _ _ _ heq
          refine ⟨hc1, fun i => ?_⟩
          have hb := hc2 i
          rw [c5_ids_withChildren, c5_ids_decomp re]
          simp only [MApp.countI]
          omega
      · split at h
        · -- non-metric definition: recurse into children
          split at h
          · exact absurd h (by simp)
          · cases h
            rename_i cs0 c0 heq
            obtain ⟨hc1, hc2⟩ := ihC _ _ _ _ heq
            refine ⟨hc1, fun i => ?_⟩
            have hb := hc2 i
            rw [c5_ids_withChildren, c5_ids_decomp re]
            simp only [MApp.countI]
            omega
        · -- metric: populateFields then children
          split at h
          · exact absurd h (by simp)
          · rename_i re1 c1 heqF
            split at h
            · exact absurd h (by simp)
            · cases h
              rename_i x0 cs0 heqC
              obtain ⟨hf1, hf2⟩ := c5_popFields_count st _ _ _ _ _ heqF
              obtain ⟨hc1, hc2⟩ := ihC _ _ _ _ heqC
              refine ⟨le_trans hf1 hc1, fun i => ?_⟩
              have hbf := hf2 i
              have hbc := hc2 i
              have hcomp := c5_indR_compose c c1 c' i hf1 hc1
              rw [c5_ids_decomp re1] at hbf
              rw [c5_ids_withChildren]
              simp only [MApp.countI] at hbf ⊢
              omega
    · intro cs c cs' c' h
      cases cs with
      | nil =>
        unfold MApp.Populate.processChildren at h
        cases h
        exact ⟨le_refl _, fun i => by omega⟩
      | cons hd tl =>
        unfold MApp.Populate.processChildren at h
        split at h
        · exact absurd h (by simp)
        · rename_i hd1 c1 heqE
          split at h
          · exact absurd h (by simp)
          · cases h
            rename_i x0 cs0 heqC
            obtain ⟨he1, he2⟩ := ihE _ _ _ _ heqE
            obtain ⟨hc1, hc2⟩ := ihC _ _ _ _ heqC
            refine ⟨le_trans he1 hc1, fun i => ?_⟩
            have hbe := he2 i
            have hbc := hc2 i
            have hcomp := c5_indR_compose c c1 c' i he1 hc1
            simp only [MApp.treeIdsList]
            rw [c5_countI_append, c5_countI_append]
            omega

theorem c5_applyFields_count (st : MApp.PipelineState) (efuel : Nat)
    (parent : Option MApp.ResolvedEntry) (root : MApp.ResolvedEntry) :
    ∀ (fs : List MApp.Field) (re : MApp.ResolvedEntry)
      (fv : List (String × MApp.Engine.EV)) (c : Int)
      (re' : MApp.ResolvedEntry) (c' : Int),
      MApp.ApplyF.applyFields st efuel parent root fs re fv c = .ok (re', c') →
      c ≤ c' ∧ ∀ i, MApp.countI i (MApp.treeIds re') ≤
        MApp.countI i (MApp.treeIds re) + MApp.indR c c' i := by
  intro fs
  induction fs with
  | nil =>
    intro re fv c re' c' h
    unfold MApp.ApplyF.applyFields at h
    cases h
    exact ⟨le_refl _, fun i => by simp [MApp.indR]⟩
  | cons field rest ih =>
    intro re fv c re' c' h
    unfold MApp.ApplyF.applyFields at h
    dsimp only at h
    split at h
    · exact ih re fv c re' c' h
    · split at h
      · exact ih re fv c re' c' h
      · split at h
        · exact ih re fv c re' c' h
        · split at h
          · exact absurd h (by simp)
          · split at h
            · exact absurd h (by simp)
            · split at h
              · exact absurd h (by simp)
              · split at h
                · split at h <;> exact absurd h (by simp)
                · split at h
                  · exact absurd h (by simp)
                  · exact absurd h (by simp)
                  · split at h
                    · -- overwrite branch
                      obtain ⟨h1, h2⟩ := ih _ _ _ _ _ h
                      refine ⟨h1, fun i => ?_⟩
                      have hb := h2 i
                      rw [c5_ids_withChildren, c5_ids_overwriteFirst _ _ ?hf,
                        ← c5_ids_decomp] at hb
                      · exact hb
                      case hf =>
                        intro x
                        cases x with
                        | mk e m a f cs =>
                          cases a with
                          | none => rfl
                          | some ae => rfl
                    · -- synthesize branch
                      obtain ⟨h1, h2⟩ := ih _ _ _ _ _ h
                      refine ⟨by omega, fun i => ?_⟩
                      have hb := h2 i
                      rw [c5_ids_withChildren, c5_idsList_append] at hb
                      rw [c5_ids_decomp re]
                      simp only [MApp.countI, MApp.treeIds, MApp.treeIdsList,
                        c5_countI_append] at hb ⊢
                      unfold MApp.indR at hb ⊢
                      split_ifs at hb ⊢ <;> omega

theorem c5_apply_count (st : MApp.PipelineState) (efuel : Nat)
    (root : MApp.ResolvedEntry) :
    ∀ fuel : Nat,
      (∀ re parent c re' c',
        MApp.ApplyF.processEntry st efuel root fuel re parent c = .ok (re', c') →
        c ≤ c' ∧ ∀ i, MApp.countI i (MApp.treeIds re') ≤
          MApp.countI i (MApp.treeIds re) + MApp.indR c c' i) ∧
      (∀ cs pe c cs' c',
        MApp.ApplyF.processChildren st efuel root fuel cs pe c = .ok (cs', c') →
        c ≤ c' ∧ ∀ i, MApp.countI i (MApp.treeIdsList cs') ≤
          MApp.countI i (MApp.treeIdsList cs) + MApp.indR c c' i) := by
  intro fuel
  induction fuel with
  | zero =>
    constructor
    · intro re parent c re' c' h
      exact absurd h (by simp [MApp.ApplyF.processEntry])
    · intro cs pe c cs' c' h
      exact absurd h (by simp [MApp.ApplyF.processChildren])
  | succ fuel ih =>
    obtain ⟨ihE, ihC⟩ := ih
    constructor
    · intro re parent c re' c' h
      unfold MApp.ApplyF.processEntry at h
      dsimp only at h
      split at h
      · split at h
        · exact absurd h (by simp)
        · cases h
          rename_i x0 cs0 heqC
          obtain ⟨hc1, hc2⟩ := ihC _ _ _ _ _ heqC
          refine ⟨hc1, fun i => ?_⟩
          have hb := hc2 i
          rw [c5_ids_withChildren, c5_ids_decomp re]
          simp only [MApp.countI]
          omega
      · split at h
        · split at h
          · exact absurd h (by simp)
          · cases h
            rename_i x0 cs0 heqC
            obtain ⟨hc1, hc2⟩ := ihC _ _ _ _ _ heqC
            refine ⟨hc1, fun i => ?_⟩
            have hb := hc2 i
            rw [c5_ids_withChildren, c5_ids_decomp re]
            simp only [MApp.countI]
            omega
        · split at h
          · exact absurd h (by simp)
          · rename_i re1 c1 heqF
            split at h
            · exact absurd h (by simp)
            · cases h
              rename_i x0 cs0 heqC
              obtain ⟨hf1, hf2⟩ := c5_applyFields_count st efuel parent root _ _ _ _ _ _ heqF
              obtain ⟨hc1, hc2⟩ := ihC _ _ _ _ _ heqC
              refine ⟨le_trans hf1 hc1, fun i => ?_⟩
              have hbf := hf2 i
              have hbc := hc2 i
              have hcomp := c5_indR_compose c c1 c' i hf1 hc1
              rw [c5_ids_decomp re1] at hbf
              rw [c5_ids_withChildren]
              simp only [MApp.countI] at hbf ⊢
              omega
    · intro cs pe c cs' c' h
      cases cs with
      | nil =>
        unfold MApp.ApplyF.processChildren at h
        cases h
        exact ⟨le_refl _, fun i => by omega⟩
      | cons hd tl =>
        unfold MApp.ApplyF.processChildren at h
        split at h
        · exact absurd h (by simp)
        · rename_i hd1 c1 heqE
          split at h
          · exact absurd h (by simp)
          · cases h
            rename_i x0 cs0 heqC
            obtain ⟨he1, he2⟩ := ihE _ _ _ _ _ heqE
            obtain ⟨hc1, hc2⟩ := ihC _ _ _ _ _ heqC
            refine ⟨le_trans he1 hc1, fun i => ?_⟩
            have hbe := he2 i
            have hbc := hc2 i
            have hcomp := c5_indR_compose c c1 c' i he1 hc1
            simp only [MApp.treeIdsList]
            rw [c5_countI_append, c5_countI_append]
            omega

theorem c5_build_count (ctx : MApp.PipelineContext) (uid : String) :
    ∀ fuel : Nat,
      (∀ input c pid re c',
        MApp.buildResolvedEntry ctx uid fuel input c pid = .ok (re, c') →
        c ≤ c' ∧ ∀ i, MApp.countI i (MApp.treeIds re) ≤ MApp.indR c c' i) ∧
      (∀ input fis c eid cs c',
        MApp.buildFieldInputs ctx uid fuel input fis c eid = .ok (cs, c') →
        c ≤ c' ∧ ∀ i, MApp.countI i (MApp.treeIdsList cs) ≤ MApp.indR c c' i) ∧
      (∀ input field bd vis c eid cs c',
        MApp.buildValues ctx uid fuel input field bd vis c eid = .ok (cs, c') →
        c ≤ c' ∧ ∀ i, MApp.countI i (MApp.treeIdsList cs) ≤ MApp.indR c c' i) ∧
      (∀ ks c eid cs c',
        MApp.buildKids ctx uid fuel ks c eid = .ok (cs, c') →
        c ≤ c' ∧ ∀ i, MApp.countI i (MApp.treeIdsList cs) ≤ MApp.indR c c' i) := by
  intro fuel
  induction fuel with
  | zero =>
    refine ⟨?_, ?_, ?_, ?_⟩
    · intro input c pid re c' h
      exact absurd h (by simp [MApp.buildResolvedEntry])
    · intro input fis c eid cs c' h
      exact absurd h (by simp [MApp.buildFieldInputs])
    · intro input field bd vis c eid cs c' h
      exact absurd h (by simp [MApp.buildValues])
    · intro ks c eid cs c' h
      exact absurd h (by simp [MApp.buildKids])
  | succ fuel ih =>
    obtain ⟨ihE, ihF, ihV, ihK⟩ := ih
    refine ⟨?_, ?_, ?_, ?_⟩
    · intro input c pid re c' h
      unfold MApp.buildResolvedEntry at h
      dsimp only at h
      split at h
      · exact absurd h (by simp)
      · split at h
        · exact absurd h (by simp)
        · rename_i children c1 heqF
          split at h
          · exact absurd h (by simp)
          · cases h
            rename_i x0 extra heqK
            obtain ⟨hf1, hf2⟩ := ihF _ _ _ _ _ _ heqF
            obtain ⟨hk1, hk2⟩ := ihK _ _ _ _ _ heqK
            refine ⟨by omega, fun i => ?_⟩
            have hbf := hf2 i
            have hbk := hk2 i
            simp only [MApp.treeIds, MApp.countI, c5_idsList_append, c5_countI_append]
            unfold MApp.indR at hbf hbk ⊢
            split_ifs at hbf hbk ⊢ <;> omega
    · intro input fis c eid cs c' h
      cases fis with
      | nil =>
        unfold MApp.buildFieldInputs at h
        cases h
        exact ⟨le_refl _, fun i => by simp [MApp.countI, MApp.treeIdsList, MApp.indR]⟩
      | cons fi rest =>
        unfold MApp.buildFieldInputs at h
        split at h
        · exact absurd h (by simp)
        · split at h
          · exact ihF _ _ _ _ _ _ h
          · split at h
            · exact absurd h (by simp)
            · rename_i cs1 c1 heqV
              split at h
              · exact absurd h (by simp)
              · cases h
                rename_i x0 cs2 heqF
                obtain ⟨hv1, hv2⟩ := ihV _ _ _ _ _ _ _ _ heqV
                obtain ⟨hf1, hf2⟩ := ihF _ _ _ _ _ _ heqF
                refine ⟨le_trans hv1 hf1, fun i => ?_⟩
                have hbv := hv2 i
                have hbf := hf2 i
                rw [c5_idsList_append, c5_countI_append]
                unfold MApp.indR at hbv hbf ⊢
                split_ifs at hbv hbf ⊢ <;> omega
    · intro input field bd vis c eid cs c' h
      cases vis with
      | nil =>
        unfold MApp.buildValues at h
        cases h
        exact ⟨le_refl _, fun i => by simp [MApp.countI, MApp.treeIdsList, MApp.indR]⟩
      | cons vi rest =>
        unfold MApp.buildValues at h
        dsimp only at h
        split at h
        · -- attribute branch
          split at h
          · exact absurd h (by simp)
          · cases h
            rename_i x0 cs1 heqV
            obtain ⟨hv1, hv2⟩ := ihV _ _ _ _ _ _ _ _ heqV
            refine ⟨by omega, fun i => ?_⟩
            have hbv := hv2 i
            simp only [MApp.treeIdsList, MApp.treeIds, MApp.countI, c5_countI_append,
              List.append_eq, List.cons_append, List.nil_append]
            unfold MApp.indR at hbv ⊢
            split_ifs at hbv ⊢ <;> omega
        · split at h
          · -- metric reference
            split at h
            · -- inline entry
              split at h
              · exact absurd h (by simp)
              · rename_i sub c2 heqE
                split at h
                · exact absurd h (by simp)
                · cases h
                  rename_i x0 cs1 heqV
                  obtain ⟨he1, he2⟩ := ihE _ _ _ _ _ heqE
                  obtain ⟨hv1, hv2⟩ := ihV _ _ _ _ _ _ _ _ heqV
                  refine ⟨by omega, fun i => ?_⟩
                  have hbe := he2 i
                  have hbv := hv2 i
                  simp only [MApp.treeIdsList, c5_countI_append]
                  rw [c5_ids_withField]
                  unfold MApp.indR at hbe hbv ⊢
                  split_ifs at hbe hbv ⊢ <;> omega
            · -- placeholder
              split at h
              · exact absurd h (by simp)
              · cases h
                rename_i x0 cs1 heqV
                obtain ⟨hv1, hv2⟩ := ihV _ _ _ _ _ _ _ _ heqV
                refine ⟨by omega, fun i => ?_⟩
                have hbv := hv2 i
                simp only [MApp.treeIdsList, MApp.treeIds, MApp.countI, c5_countI_append,
                  List.append_eq, List.cons_append, List.nil_append]
                unfold MApp.indR at hbv ⊢
                split_ifs at hbv ⊢ <;> omega
          · -- neither: value dropped
            split at h
            · exact absurd h (by simp)
            · cases h
              rename_i x0 cs1 heqV
              obtain ⟨hv1, hv2⟩ := ihV _ _ _ _ _ _ _ _ heqV
              refine ⟨by omega, fun i => ?_⟩
              have hbv := hv2 i
              unfold MApp.indR at hbv ⊢
              split_ifs at hbv ⊢ <;> omega
    · intro ks c eid cs c' h
      cases ks with
      | nil =>
        unfold MApp.buildKids at h
        cases h
        exact ⟨le_refl _, fun i => by simp [MApp.countI, MApp.treeIdsList, MApp.indR]⟩
      | cons k rest =>
        unfold MApp.buildKids at h
        split at h
        · exact absurd h (by simp)
        · rename_i sub c1 heqE
          split at h
          · exact absurd h (by simp)
          · cases h
            rename_i x0 cs1 heqK
            obtain ⟨he1, he2⟩ := ihE _ _ _ _ _ heqE
            obtain ⟨hk1, hk2⟩ := ihK _ _ _ _ _ heqK
            refine ⟨le_trans he1 hk1, fun i => ?_⟩
            have hbe := he2 i
            have hbk := hk2 i
            simp only [MApp.treeIdsList, c5_countI_append]
            unfold MApp.indR at hbe hbk ⊢
            split_ifs at hbe hbk ⊢ <;> omega

/-- C5 (amended): provisional ids come from three per-stage counters that all
ASCEND — the tree builder allocates each node's id from a counter it only
increments (from 1), the hierarchy populator from −1000 upward, the formula
applier from −2000 upward (the original claim said the negative counters
descend; the counterexample shows them ascending).  Every id a stage creates
lies in `[start, final)` and is used at most once, so when the populate run
ends at a counter ≤ 0 and the formula run at a counter ≤ −1000 (at most 1000
allocations each) the three ranges are pairwise disjoint and no id in the
final tree is duplicated. -/
theorem C5_amended_disjoint_id_ranges :
    (∀ (ctx : MApp.PipelineContext) (uid : String) (fuel : Nat)
      (input : MApp.MetricEntryInput) (c : Int) (pid : Option Int)
      (re : MApp.ResolvedEntry) (c' : Int),
      MApp.buildResolvedEntry ctx uid fuel input c pid = .ok (re, c') →
      c ≤ c' ∧ ∀ i, MApp.countI i (MApp.treeIds re) ≤ MApp.indR c c' i) ∧
    (∀ (st : MApp.PipelineState) (fuel : Nat) (re : MApp.ResolvedEntry) (c : Int)
      (re' : MApp.ResolvedEntry) (c' : Int),
      MApp.Populate.processEntry st fuel re c = .ok (re', c') →
      c ≤ c' ∧ ∀ i, MApp.countI i (MApp.treeIds re') ≤
        MApp.countI i (MApp.treeIds re) + MApp.indR c c' i) ∧
    (∀ (st : MApp.PipelineState) (efuel : Nat) (root : MApp.ResolvedEntry) (fuel : Nat)
      (re : MApp.ResolvedEntry) (parent : Option MApp.ResolvedEntry) (c : Int)
      (re' : MApp.ResolvedEntry) (c' : Int),
      MApp.ApplyF.processEntry st efuel root fuel re parent c = .ok (re', c') →
      c ≤ c' ∧ ∀ i, MApp.countI i (MApp.treeIds re') ≤
        MApp.countI i (MApp.treeIds re) + MApp.indR c c' i) ∧
    (∀ (ctx : MApp.PipelineContext) (uid : String) (bfuel : Nat)
      (input : MApp.MetricEntryInput) (rootB : MApp.ResolvedEntry) (cb : Int)
      (st : MApp.PipelineState) (pfuel : Nat) (rootP : MApp.ResolvedEntry) (cp : Int)
      (st2 : MApp.PipelineState) (efuel afuel : Nat) (eroot : MApp.ResolvedEntry)
      (parent : Option MApp.ResolvedEntry) (rootA : MApp.ResolvedEntry) (ca : Int),
      MApp.buildResolvedEntry ctx uid bfuel input 1 none = .ok (rootB, cb) →
      MApp.Populate.processEntry st pfuel rootB (-1000) = .ok (rootP, cp) →
      cp ≤ 0 →
      MApp.ApplyF.processEntry st2 efuel eroot afuel rootP parent (-2000) = .ok (rootA, ca) →
      ca ≤ -1000 →
      ∀ i, MApp.countI i (MApp.treeIds rootA) ≤ 1) := by
  refine ⟨?_, ?_, ?_, ?_⟩
  · intro ctx uid fuel input c pid re c' h
    exact (c5_build_count ctx uid fuel).1 input c pid re c' h
  · intro st fuel re c re' c' h
    exact (c5_pop_count st fuel).1 re c re' c' h
  · intro st efuel root fuel re parent c re' c' h
    exact (c5_apply_count st efuel root fuel).1 re parent c re' c' h
  · intro ctx uid bfuel input rootB cb st pfuel rootP cp st2 efuel afuel eroot parent
      rootA ca hb hp hcp ha hca i
    obtain ⟨hb1, hb2⟩ := (c5_build_count ctx uid bfuel).1 _ _ _ _ _ hb
    obtain ⟨hp1, hp2⟩ := (c5_pop_count st pfuel).1 _ _ _ _ hp
    obtain ⟨ha1, ha2⟩ := (c5_apply_count st2 efuel eroot afuel).1 _ _ _ _ _ ha
    have b2 := hb2 i
    have p2 := hp2 i
    have a2 := ha2 i
    unfold MApp.indR at b2 p2 a2
    split_ifs at b2 p2 a2 <;> omega



/-- C5 witness: a one-node pipeline — builder makes the root with id 1
(counter ends 2), populate and formula stages allocate nothing, and the final
tree holds id 1 exactly once. -/
theorem C5_witness :
    MApp.countI 1 (MApp.treeIds MApp.c5wRoot) ≤ 1 :=
  (C5_amended_disjoint_id_ranges.2.2.2 MApp.c5wCtx "u" 3 (.mk "M" ⟨0, 0⟩ none none [] [])
    MApp.c5wRoot 2 MApp.c5wState 3 MApp.c5wRoot (-1000) MApp.c5wState 3 3
    MApp.c5wRoot none MApp.c5wRoot (-2000) rfl rfl (by decide) rfl (by decide)) 1
